import Mathlib

/-!
Verification development for an e-commerce ETL pipeline that migrates a
relational dataset (customers, categories, products, orders, order items,
behavioral events) into a property graph, plus a liveness endpoint over the
two backing stores.

The pipeline lives in `app/etl.py` (readiness gate, extractor, temporal
normalizer, batcher, graph loader) and the liveness endpoint in
`app/main.py`.  Pure functions are embedded directly; effectful code is
embedded as explicit state passing (the graph store is a pair of finite-ish
maps from node/edge identities to property maps, the source store is a
function from table name to a fallible read result, time is a unit-step
counter).
-/

/-- A property/field value as it flows through the pipeline.  `null` is the
absent marker (Python `None` / Cypher `NULL`); `date` and `dt` are the typed
temporal values produced by the Cypher `date(...)` and `datetime(...)`
constructors, tagged by their canonical string. -/
inductive Val where
  | null : Val
  | str (s : String) : Val
  | int (n : Int) : Val
  | float (q : Rat) : Val
  | date (s : String) : Val
  | dt (s : String) : Val
deriving DecidableEq

/-- Python `str(...)` / pandas `astype(str)` on a cell value, as used by the
normalizer before parsing. -/
def valToStr : Val → String
  | Val.null => "None"
  | Val.str s => s
  | Val.int n => toString n
  | Val.float q => toString q
  | Val.date s => s
  | Val.dt s => s

/-- Split a character list on a separator character (model of `str.split`
semantics used via `pandas.to_datetime` format detection; also used for the
statement splitting shape). -/
def splitOnCharAux (c : Char) : List Char → List Char → List (List Char)
  | [], acc => [acc.reverse]
  | x :: xs, acc =>
    if x = c then acc.reverse :: splitOnCharAux c xs []
    else splitOnCharAux c xs (x :: acc)

def splitOnChar (c : Char) (l : List Char) : List (List Char) :=
  splitOnCharAux c l []

def digitVal (c : Char) : Option Nat :=
  if c.isDigit then some (c.toNat - 48) else none

def digitsToNatAux : List Char → Nat → Option Nat
  | [], acc => some acc
  | c :: cs, acc =>
    match digitVal c with
    | some d => digitsToNatAux cs (acc * 10 + d)
    | none => none

/-- Parse a nonempty all-digit character list as a natural number. -/
def digitsToNat (l : List Char) : Option Nat :=
  match l with
  | [] => none
  | _ => digitsToNatAux l 0

/-- Strip leading/trailing whitespace (model of `str.strip()`). -/
def stripChars (l : List Char) : List Char :=
  ((l.dropWhile Char.isWhitespace).reverse.dropWhile Char.isWhitespace).reverse

/-- Modelled from pandas `to_datetime` on ISO-like input: a `YYYY-MM-DD`
calendar date.  Day-of-month validation is simplified to the range 1..31. -/
def parseDateParts (l : List Char) : Option (Nat × Nat × Nat) :=
  match splitOnChar '-' l with
  | [y, m, d] =>
    match digitsToNat y, digitsToNat m, digitsToNat d with
    | some yn, some mn, some dn =>
      if y.length = 4 ∧ 1 ≤ mn ∧ mn ≤ 12 ∧ 1 ≤ dn ∧ dn ≤ 31 then
        some (yn, mn, dn)
      else none
    | _, _, _ => none
  | _ => none

/-- Modelled from pandas `to_datetime`: an `HH:MM:SS` time-of-day part. -/
def parseTimeParts (l : List Char) : Option (Nat × Nat × Nat) :=
  match splitOnChar ':' l with
  | [h, m, s] =>
    match digitsToNat h, digitsToNat m, digitsToNat s with
    | some hn, some mn, some sn =>
      if hn ≤ 23 ∧ mn ≤ 59 ∧ sn ≤ 59 then some (hn, mn, sn) else none
    | _, _, _ => none
  | _ => none

/-- Modelled from pandas `to_datetime(..., errors="coerce")` on the textual
formats this dataset carries: a date, optionally followed by a time separated
by a space or a `T`.  A date with no time part is midnight.  No timezone
suffix is modelled; with `utc=True` a naive timestamp is interpreted as UTC,
which is the identity on the wall-clock fields. -/
def parseTemporal (l : List Char) : Option ((Nat × Nat × Nat) × (Nat × Nat × Nat)) :=
  match splitOnChar ' ' l with
  | [only] =>
    match splitOnChar 'T' only with
    | [d] => (parseDateParts d).map (fun dd => (dd, (0, 0, 0)))
    | [d, t] =>
      match parseDateParts d, parseTimeParts t with
      | some dd, some tt => some (dd, tt)
      | _, _ => none
    | _ => none
  | [d, t] =>
    match parseDateParts d, parseTimeParts t with
    | some dd, some tt => some (dd, tt)
    | _, _ => none
  | _ => none

def pad2 (n : Nat) : String :=
  if n < 10 then "0" ++ toString n else toString n

def pad4 (n : Nat) : String :=
  if n < 10 then "000" ++ toString n
  else if n < 100 then "00" ++ toString n
  else if n < 1000 then "0" ++ toString n
  else toString n

def formatDate (d : Nat × Nat × Nat) : String :=
  pad4 d.1 ++ "-" ++ pad2 d.2.1 ++ "-" ++ pad2 d.2.2

def formatTime (t : Nat × Nat × Nat) : String :=
  pad2 t.1 ++ ":" ++ pad2 t.2.1 ++ ":" ++ pad2 t.2.2

/-- Elementwise model of `_to_date_str` (etl.py): coerce to text, strip,
best-effort parse, `strftime("%Y-%m-%d")` on success, `None` on failure. -/
def to_date_str (v : Val) : Val :=
  match parseTemporal (stripChars (valToStr v).toList) with
  | some (d, _) => Val.str (formatDate d)
  | none => Val.null

/-- Elementwise model of `_to_datetime_str` (etl.py): coerce to text, strip,
best-effort parse as UTC, `strftime("%Y-%m-%dT%H:%M:%SZ")` on success,
`None` on failure. -/
def to_datetime_str (v : Val) : Val :=
  match parseTemporal (stripChars (valToStr v).toList) with
  | some (d, t) => Val.str (formatDate d ++ "T" ++ formatTime t ++ "Z")
  | none => Val.null

/-- Parse an optionally `-`-signed digit string as an integer. -/
def parseIntChars (l : List Char) : Option Int :=
  match l with
  | '-' :: rest => (digitsToNat rest).map (fun n => -(n : Int))
  | _ => (digitsToNat l).map (fun n => (n : Int))

/-- Parse a decimal literal (optional single point) as a rational. -/
def parseDecimal (l : List Char) : Option Rat :=
  match splitOnChar '.' l with
  | [i] => (parseIntChars i).map (fun n => (n : Rat))
  | [i, f] =>
    match parseIntChars (i ++ f), digitsToNat f with
    | some n, some _ => some ((n : Rat) / (10 : Rat) ^ f.length)
    | _, _ => none
  | _ => none

/-- Modelled from Cypher `toFloat(...)` as used on `row.price`: numbers map to
their float value, numeric strings are parsed, anything else is `NULL`. -/
def toFloatVal : Val → Val
  | Val.int n => Val.float (n : Rat)
  | Val.float q => Val.float q
  | Val.str s =>
    match parseDecimal (stripChars s.toList) with
    | some q => Val.float q
    | none => Val.null
  | _ => Val.null

/-- Modelled from Cypher `toInteger(...)` as used on `row.quantity`: integers
pass through, floats truncate toward zero, integer strings are parsed,
anything else is `NULL`. -/
def toIntVal : Val → Val
  | Val.int n => Val.int n
  | Val.float q => Val.int (q.num / (q.den : Int))
  | Val.str s =>
    match parseIntChars (stripChars s.toList) with
    | some n => Val.int n
    | none => Val.null
  | _ => Val.null

example : to_date_str (Val.str "2023-03-05") = Val.str "2023-03-05" := by decide
example : to_datetime_str (Val.str "2023-03-05 14:30:00") = Val.str "2023-03-05T14:30:00Z" := by decide
example : to_date_str (Val.str "not-a-date") = Val.null := by decide
example : to_datetime_str (Val.str "") = Val.null := by decide
example : to_datetime_str (Val.str "2023-03-05") = Val.str "2023-03-05T00:00:00Z" := by decide

/-! ## Rows and tables -/

/-- A source record, as produced by `DataFrame.to_dict("records")`: a mapping
from column name to cell value. -/
abbrev Row := List (String × Val)

/-- Field access on a record.  A missing key is `null`, matching both
`dict.get` in the event partitioning and Cypher map access `row.field` on a
parameter map without that key. -/
def rowGet (r : Row) (f : String) : Val :=
  match r.find? (fun p => decide (p.1 = f)) with
  | some p => p.2
  | none => Val.null

/-- Field assignment on a record (in-place column overwrite). -/
def rowSet (r : Row) (f : String) (v : Val) : Row :=
  if r.any (fun p => decide (p.1 = f)) then
    r.map (fun p => if p.1 = f then (f, v) else p)
  else r ++ [(f, v)]

/-- An in-memory tabular snapshot of one relation (a DataFrame): its column
list and its records. -/
structure Table where
  cols : List String
  rows : List Row
deriving DecidableEq

/-- The string-keyed mapping of relation name to table that `extract_postgres`
returns and `normalize_tables` consumes. -/
abbrev Tables := List (String × Table)

def dictGet (ts : Tables) (k : String) : Option Table :=
  (ts.find? (fun p => decide (p.1 = k))).map (fun p => p.2)

def dictSet (ts : Tables) (k : String) (v : Table) : Tables :=
  ts.map (fun p => if p.1 = k then (k, v) else p)

/-- Overwrite one column of a table by applying `fn` elementwise (the model of
`t[name][col] = series_fn(t[name][col])`). -/
def mapColumn (tbl : Table) (f : String) (fn : Val → Val) : Table :=
  { cols := tbl.cols, rows := tbl.rows.map (fun r => rowSet r f (fn (rowGet r f))) }

/-- One guarded rewrite of `normalize_tables`: if table `name` is present and
has column `col`, rewrite that column with `fn`; otherwise leave the mapping
unchanged. -/
def normStep (ts : Tables) (name col : String) (fn : Val → Val) : Tables :=
  match dictGet ts name with
  | some tbl => if col ∈ tbl.cols then dictSet ts name (mapColumn tbl col fn) else ts
  | none => ts

/-- Model of `normalize_tables` (etl.py): copy the mapping, then rewrite
`customers.join_date` with the date normalizer and `orders.ts` / `events.ts`
with the datetime normalizer, skipping missing tables/columns.  The source's
`.copy()` per table makes it pure; the embedding is pure by construction. -/
def normalize_tables (ts : Tables) : Tables :=
  normStep (normStep (normStep ts "customers" "join_date" to_date_str)
    "orders" "ts" to_datetime_str) "events" "ts" to_datetime_str

/-! ## Batcher -/

def chunkAux (size : Nat) : List α → List α → List (List α)
  | buf, [] => if buf.isEmpty then [] else [buf]
  | buf, x :: xs =>
    let buf2 := buf ++ [x]
    if size ≤ buf2.length then buf2 :: chunkAux size [] xs
    else chunkAux size buf2 xs

/-- Model of `chunk` (etl.py): accumulate into a buffer, emit the buffer once
it reaches `size` elements, emit any nonempty remainder at the end. -/
def chunk (l : List α) (size : Nat) : List (List α) :=
  chunkAux size [] l

/-- The expected chunk sizes for an input of length `n`: `n / size` full
chunks followed by the nonzero remainder, if any. -/
def chunkSizes (size n : Nat) : List Nat :=
  List.replicate (n / size) size ++ (if n % size = 0 then [] else [n % size])

def BATCH_SIZE : Nat := 1000

/-! ## Graph store model -/

/-- Node identity: label plus the key property the loader merges on. -/
structure NodeKey where
  label : String
  id : Val
deriving DecidableEq

/-- Edge identity: relationship type plus the two endpoint identities.  A
relationship of a given kind between two endpoints is unique, which is
exactly `MERGE` semantics on `(src)-[:REL]->(dst)`. -/
structure EdgeKey where
  rel : String
  src : NodeKey
  dst : NodeKey
deriving DecidableEq

/-- A property map (Neo4j properties are an unordered string-keyed map). -/
abbrev Props := String → Option Val

def emptyProps : Props := fun _ => none

/-- Cypher `SET x.f = v`. -/
def setProp (p : Props) (f : String) (v : Val) : Props :=
  fun f2 => if f2 = f then some v else p f2

/-- A sequence of `SET` clauses applied left to right. -/
def setProps (p : Props) (u : List (String × Val)) : Props :=
  u.foldl (fun p2 kv => setProp p2 kv.1 kv.2) p

/-- The graph store: node and edge property maps keyed by identity.  The
uniqueness constraints installed by the schema-setup step are intrinsic here:
a key denotes at most one node/edge. -/
structure Graph where
  nodes : NodeKey → Option Props
  edges : EdgeKey → Option Props

def Graph.empty : Graph :=
  { nodes := fun _ => none, edges := fun _ => none }

/-- Cypher `MERGE (n:Label {id: k}) SET n.f1 = v1, ...`: create the node if
absent, then overwrite the listed properties, keeping any others. -/
def upsertNode (g : Graph) (k : NodeKey) (u : List (String × Val)) : Graph :=
  { nodes := fun k2 => if k2 = k then some (setProps ((g.nodes k).getD emptyProps) u) else g.nodes k2,
    edges := g.edges }

/-- Cypher `MERGE (a)-[r:REL]->(b) SET r.f1 = v1, ...` between two existing
endpoints. -/
def upsertEdge (g : Graph) (k : EdgeKey) (u : List (String × Val)) : Graph :=
  { nodes := g.nodes,
    edges := fun k2 => if k2 = k then some (setProps ((g.edges k).getD emptyProps) u) else g.edges k2 }

/-- The guarded `CASE WHEN x IS NULL OR x = "" THEN NULL ELSE date(x) END`
used for `join_date`.  After normalization the field is always a string or
null; Cypher `date` on an off-contract value would raise, which we model as
tagging its textual form. -/
def guardDate : Val → Val
  | Val.null => Val.null
  | Val.str s => if s = "" then Val.null else Val.date s
  | v => Val.date (valToStr v)

/-- The guarded `CASE ... ELSE datetime(x) END` used for `ts` fields. -/
def guardDT : Val → Val
  | Val.null => Val.null
  | Val.str s => if s = "" then Val.null else Val.dt s
  | v => Val.dt (valToStr v)

/-! ## Graph loader

Each load step sends its records through the batcher and issues one `UNWIND`
write per batch; the rows of one batch are processed in order and each row's
writes are visible to the later rows of the same statement, so a step is a
left fold of its per-row action over the chunked record list. -/

def runBatched (g : Graph) (rows : List Row) (act : Graph → Row → Graph) : Graph :=
  (chunk rows BATCH_SIZE).foldl (fun g2 batch => batch.foldl act g2) g

/-- Step 2: `MERGE (g:Category {id}) SET g.name`. -/
def catAct (g : Graph) (row : Row) : Graph :=
  upsertNode g ⟨"Category", rowGet row "id"⟩ [("name", rowGet row "name")]

def load_categories (g : Graph) (rows : List Row) : Graph :=
  runBatched g rows catAct

/-- Step 3: `MERGE (p:Product {id}) SET p.name, p.price = toFloat(row.price)`
then `MATCH (g:Category {id: row.category_id}) MERGE (p)-[:IN_CATEGORY]->(g)`.
A failed `MATCH` drops the row after the node upsert: no edge, no error. -/
def prodAct (g : Graph) (row : Row) : Graph :=
  let pk : NodeKey := ⟨"Product", rowGet row "id"⟩
  let g1 := upsertNode g pk [("name", rowGet row "name"), ("price", toFloatVal (rowGet row "price"))]
  let ck : NodeKey := ⟨"Category", rowGet row "category_id"⟩
  if (g1.nodes ck).isSome then upsertEdge g1 ⟨"IN_CATEGORY", pk, ck⟩ [] else g1

def load_products (g : Graph) (rows : List Row) : Graph :=
  runBatched g rows prodAct

/-- Step 4: `MERGE (c:Customer {id}) SET c.name, c.join_date = CASE ...`. -/
def custAct (g : Graph) (row : Row) : Graph :=
  upsertNode g ⟨"Customer", rowGet row "id"⟩
    [("name", rowGet row "name"), ("join_date", guardDate (rowGet row "join_date"))]

def load_customers (g : Graph) (rows : List Row) : Graph :=
  runBatched g rows custAct

/-- Step 5: `MERGE (o:Order {id}) SET o.ts = CASE ...` then
`MATCH (c:Customer {id: row.customer_id}) MERGE (c)-[:PLACED]->(o)`. -/
def ordAct (g : Graph) (row : Row) : Graph :=
  let ok : NodeKey := ⟨"Order", rowGet row "id"⟩
  let g1 := upsertNode g ok [("ts", guardDT (rowGet row "ts"))]
  let ck : NodeKey := ⟨"Customer", rowGet row "customer_id"⟩
  if (g1.nodes ck).isSome then upsertEdge g1 ⟨"PLACED", ck, ok⟩ [] else g1

def load_orders (g : Graph) (rows : List Row) : Graph :=
  runBatched g rows ordAct

/-- Step 6: `MATCH (o:Order) MATCH (p:Product) MERGE (o)-[r:CONTAINS]->(p)
SET r.quantity = toInteger(row.quantity)`; both endpoints must exist. -/
def itemAct (g : Graph) (row : Row) : Graph :=
  let ok : NodeKey := ⟨"Order", rowGet row "order_id"⟩
  let pk : NodeKey := ⟨"Product", rowGet row "product_id"⟩
  if (g.nodes ok).isSome && (g.nodes pk).isSome then
    upsertEdge g ⟨"CONTAINS", ok, pk⟩ [("quantity", toIntVal (rowGet row "quantity"))]
  else g

def load_order_items (g : Graph) (rows : List Row) : Graph :=
  runBatched g rows itemAct

/-- Step 7 per-bucket action: `MATCH (c:Customer) MATCH (p:Product)
MERGE (c)-[r:REL]->(p) SET r.ts = CASE ...`. -/
def eventAct (rel : String) (g : Graph) (row : Row) : Graph :=
  let ck : NodeKey := ⟨"Customer", rowGet row "customer_id"⟩
  let pk : NodeKey := ⟨"Product", rowGet row "product_id"⟩
  if (g.nodes ck).isSome && (g.nodes pk).isSome then
    upsertEdge g ⟨rel, ck, pk⟩ [("ts", guardDT (rowGet row "ts"))]
  else g

/-- The event partitioning `by_type`: `[e for e in events if e.get("event_type") == t]`. -/
def byType (events : List Row) (t : String) : List Row :=
  events.filter (fun e => decide (rowGet e "event_type" = Val.str t))

def load_event_rel (rel : String) (g : Graph) (rows : List Row) : Graph :=
  runBatched g rows (eventAct rel)

/-- Step 7: the three fixed buckets, in source order.  Any other
`event_type` lands in no bucket and is silently dropped. -/
def load_events (g : Graph) (events : List Row) : Graph :=
  load_event_rel "ADDED_TO_CART"
    (load_event_rel "CLICKED"
      (load_event_rel "VIEWED" g (byType events "view"))
      (byType events "click"))
    (byType events "add_to_cart")

/-- The six relation snapshots handed to the loader (the values of the table
mapping, as record lists). -/
structure SrcTables where
  customers : List Row
  categories : List Row
  products : List Row
  orders : List Row
  order_items : List Row
  events : List Row
deriving DecidableEq

/-- Model of `load_graph` (etl.py): schema setup (constraint DDL, which is
intrinsic to the keyed maps here), then categories, products + IN_CATEGORY,
customers, orders + PLACED, CONTAINS, and the behavioral event buckets, in
that fixed order, each step batched. -/
def load_graph (t : SrcTables) (g : Graph) : Graph :=
  load_events
    (load_order_items
      (load_orders
        (load_customers
          (load_products
            (load_categories g t.categories)
            t.products)
          t.customers)
        t.orders)
      t.order_items)
    t.events

/-! ## Readiness gate -/

/-- Result of a readiness wait: success or re-raised failure, tagged with the
cumulative elapsed time (one unit per sleep between retries). -/
inductive AwaitResult (E : Type) where
  | ok (elapsed : Nat) : AwaitResult E
  | err (e : E) (elapsed : Nat) : AwaitResult E
deriving DecidableEq

/-- The retry loop shared by `wait_for_postgres` and `wait_for_neo4j`
(etl.py): try the probe; on success return; on failure re-raise if the
elapsed time exceeds `timeout`, else sleep one unit and retry.  `probe t` is
the probe's outcome at elapsed time `t`. -/
def awaitFrom (probe : Nat → Except E Unit) (timeout : Nat) (t : Nat) : AwaitResult E :=
  match probe t with
  | Except.ok _ => AwaitResult.ok t
  | Except.error e =>
    if timeout < t then AwaitResult.err e t
    else awaitFrom probe timeout (t + 1)
termination_by timeout + 1 - t
decreasing_by simp_wf; omega

def await_ready (probe : Nat → Except E Unit) (timeout : Nat) : AwaitResult E :=
  awaitFrom probe timeout 0

def WAIT_TIMEOUT_SEC : Nat := 120

/-! ## Extractor resource model -/

/-- Observable resource events of one `extract_postgres` invocation. -/
inductive PgEv where
  | createEngine : PgEv
  | readTable (name : String) : PgEv
  | disposeEngine : PgEv
deriving DecidableEq

def tableNames : List String :=
  ["customers", "categories", "products", "orders", "order_items", "events"]

/-- The read loop of `extract_postgres`: one full-table read per name, in
order; the first failing read aborts the loop and propagates. -/
def readTables (db : String → Except String Table) :
    List String → Except String (List (String × Table)) × List PgEv
  | [] => (Except.ok [], [])
  | n :: ns =>
    match db n with
    | Except.ok tbl =>
      let r := readTables db ns
      (r.1.map (fun rest => (n, tbl) :: rest), PgEv.readTable n :: r.2)
    | Except.error e => (Except.error e, [PgEv.readTable n])

/-- Model of `extract_postgres` (etl.py): create one engine, read the six
fixed relations, dispose the engine, return the mapping.  There is no
try/finally: `engine.dispose()` runs only when every read succeeds; a failing
read propagates with the engine still un-disposed. -/
def extract_postgres (db : String → Except String Table) :
    Except String (List (String × Table)) × List PgEv :=
  match readTables db tableNames with
  | (Except.ok tbls, tr) => (Except.ok tbls, PgEv.createEngine :: (tr ++ [PgEv.disposeEngine]))
  | (Except.error e, tr) => (Except.error e, PgEv.createEngine :: tr)

/-! ## Liveness endpoint model (main.py) -/

/-- One store's behavior for a single fresh round trip: the connection
attempt and the probe query, each fallible. -/
structure StoreWorld where
  connect : Except String Unit
  query : Except String Unit

/-- The body of `pg_ok`: `psycopg2.connect`, then `SELECT 1;` + fetch. -/
def pgBody (w : StoreWorld) : Except String Unit :=
  match w.connect with
  | Except.ok _ => w.query
  | Except.error e => Except.error e

/-- `pg_ok` (main.py): the round trip wrapped in `try/except` returning a
boolean; every failure mode maps to `False`, nothing propagates. -/
def pg_ok (w : StoreWorld) : Bool :=
  match pgBody w with
  | Except.ok _ => true
  | Except.error _ => false

/-- The body of `neo4j_ok`: driver construction + session `RETURN 1`. -/
def neo4jBody (w : StoreWorld) : Except String Unit :=
  match w.connect with
  | Except.ok _ => w.query
  | Except.error e => Except.error e

def neo4j_ok (w : StoreWorld) : Bool :=
  match neo4jBody w with
  | Except.ok _ => true
  | Except.error _ => false

/-- The `/health` endpoint: `{"ok": pg_ok() and neo4j_ok()}`. -/
def health (wp wn : StoreWorld) : Bool :=
  pg_ok wp && neo4j_ok wn

/-! ## Characterization helpers for the loader -/

/-- The last row of `rows` satisfying `p`: the last writer for a merge key. -/
def lastWith (rows : List Row) (p : Row → Bool) : Option Row :=
  (rows.filter p).getLast?

/-- The stored value of one key after an upsert step: if some row matched
(`some r` is the last such row), the previous properties overwritten by the
row's `SET` list; otherwise the previous value. -/
def charUpd (old : Option Props) (upd : Row → List (String × Val)) : Option Row → Option Props
  | some r => some (setProps (old.getD emptyProps) (upd r))
  | none => old

/-- Whether a `Category` node keyed `v` exists when the products step runs:
either some categories row carries that id, or the node pre-existed in the
initial graph. -/
def catExists (t : SrcTables) (g : Graph) (v : Val) : Bool :=
  t.categories.any (fun r => decide (rowGet r "id" = v)) || (g.nodes ⟨"Category", v⟩).isSome

/-- Whether a `Customer` node keyed `v` exists when the orders/events steps run. -/
def custExists (t : SrcTables) (g : Graph) (v : Val) : Bool :=
  t.customers.any (fun r => decide (rowGet r "id" = v)) || (g.nodes ⟨"Customer", v⟩).isSome

/-- Whether a `Product` node keyed `v` exists when the order-items/events steps run. -/
def prodExists (t : SrcTables) (g : Graph) (v : Val) : Bool :=
  t.products.any (fun r => decide (rowGet r "id" = v)) || (g.nodes ⟨"Product", v⟩).isSome

/-- Whether an `Order` node keyed `v` exists when the order-items step runs. -/
def ordExists (t : SrcTables) (g : Graph) (v : Val) : Bool :=
  t.orders.any (fun r => decide (rowGet r "id" = v)) || (g.nodes ⟨"Order", v⟩).isSome

/-! ## Batcher lemmas -/

theorem chunkAux_flatten (size : Nat) :
    ∀ (l buf : List α), (chunkAux size buf l).flatten = buf ++ l := by
  intro l
  induction l with
  | nil =>
    intro buf
    by_cases h : buf.isEmpty
    · simp [chunkAux, h, List.isEmpty_iff.mp h]
    · simp [chunkAux, h]
  | cons x xs ih =>
    intro buf
    by_cases h : size ≤ buf.length + 1
    · simp [chunkAux, h, ih]
    · simp [chunkAux, h, ih (buf ++ [x])]

theorem chunk_flatten (l : List α) (size : Nat) : (chunk l size).flatten = l := by
  simpa using chunkAux_flatten size l []

theorem chunkSizes_zero (size : Nat) : chunkSizes size 0 = [] := by
  simp [chunkSizes]

theorem chunkSizes_small (size n : Nat) (h1 : 0 < n) (h2 : n < size) :
    chunkSizes size n = [n] := by
  unfold chunkSizes
  rw [Nat.div_eq_of_lt h2, Nat.mod_eq_of_lt h2, if_neg (by omega)]
  simp

theorem chunkSizes_step (size m : Nat) (h : 0 < size) :
    chunkSizes size (size + m) = size :: chunkSizes size m := by
  have hd : (size + m) / size = m / size + 1 := by
    rw [Nat.add_comm]
    exact Nat.add_div_right m h
  have hm : (size + m) % size = m % size := by
    rw [Nat.add_comm]
    exact Nat.add_mod_right m size
  simp [chunkSizes, hd, hm, List.replicate_succ]

theorem chunkAux_sizes (size : Nat) (hs : 0 < size) :
    ∀ (l buf : List α), buf.length < size →
      (chunkAux size buf l).map List.length = chunkSizes size (buf.length + l.length) := by
  intro l
  induction l with
  | nil =>
    intro buf hb
    by_cases h : buf.isEmpty
    · simp [chunkAux, h, List.isEmpty_iff.mp h, chunkSizes_zero]
    · have hpos : 0 < buf.length := by
        cases buf with
        | nil => simp at h
        | cons a t => simp
      simp [chunkAux, h, chunkSizes_small size buf.length hpos hb]
  | cons x xs ih =>
    intro buf hb
    by_cases h : size ≤ buf.length + 1
    · have hlen : buf.length + 1 = size := by omega
      have h2 : buf.length + (x :: xs).length = size + xs.length := by
        simp only [List.length_cons]
        omega
      rw [h2, chunkSizes_step size xs.length hs]
      simp only [chunkAux]
      rw [if_pos (by simpa using h)]
      have h3 := ih [] (by simpa using hs)
      simp only [List.map_cons, h3, List.length_nil, List.length_append,
        List.length_cons, Nat.zero_add]
      simp [hlen]
    · have hlt : (buf ++ [x]).length < size := by
        simp only [List.length_append, List.length_cons, List.length_nil]
        omega
      have h2 : buf.length + (x :: xs).length = (buf ++ [x]).length + xs.length := by
        simp only [List.length_append, List.length_cons, List.length_nil]
        omega
      rw [h2]
      simp only [chunkAux]
      rw [if_neg (by simpa using h)]
      exact ih (buf ++ [x]) hlt

theorem chunk_sizes (l : List α) (size : Nat) (h : 0 < size) :
    (chunk l size).map List.length = chunkSizes size l.length := by
  simpa using chunkAux_sizes size h l [] h

/-- C4: for every finite input and positive `size`, `chunk` emits batches
whose concatenation is the input in order; the batch lengths are
`l.length / size` full batches of exactly `size` followed by one nonempty
remainder batch of `l.length % size < size` elements exactly when the length
is not a multiple of `size`; every batch is nonempty and at most `size`
long; the empty input yields no batches. -/
theorem chunk_spec (l : List α) (size : Nat) (h : 0 < size) :
    (chunk l size).flatten = l ∧
    (chunk l size).map List.length =
      List.replicate (l.length / size) size ++
        (if l.length % size = 0 then [] else [l.length % size]) ∧
    (∀ c ∈ chunk l size, 0 < c.length ∧ c.length ≤ size) ∧
    chunk ([] : List α) size = [] := by
  refine ⟨chunk_flatten l size, chunk_sizes l size h, ?_, by simp [chunk, chunkAux]⟩
  intro c hc
  have hmem : c.length ∈ (chunk l size).map List.length := List.mem_map_of_mem List.length hc
  rw [chunk_sizes l size h] at hmem
  unfold chunkSizes at hmem
  rcases List.mem_append.mp hmem with h1 | h2
  · have := List.eq_of_mem_replicate h1
    omega
  · by_cases hz : l.length % size = 0
    · simp [hz] at h2
    · simp [hz] at h2
      have := Nat.mod_lt l.length h
      omega

/-- Witness for C4 at the spec's concrete instance: chunking `[1..2500]`
(as `List.range 2500`) with batch size 1000 gives batches of sizes
`[1000, 1000, 500]` whose concatenation is the input. -/
theorem chunk_spec_witness :
    (0 : Nat) < 1000 ∧
    (chunk (List.range 2500) 1000).flatten = List.range 2500 ∧
    (chunk (List.range 2500) 1000).map List.length = [1000, 1000, 500] := by
  have h := chunk_spec (List.range 2500) 1000 (by decide)
  refine ⟨by decide, h.1, ?_⟩
  rw [h.2.1, List.length_range]
  decide

/-! ## Temporal normalization (C3) -/

theorem formatDate_ne_empty (d : Nat × Nat × Nat) : formatDate d ≠ "" := by
  intro h
  have hl := congrArg String.length h
  simp only [formatDate, String.length_append,
    show ("-" : String).length = 1 from rfl, show ("" : String).length = 0 from rfl] at hl
  omega

theorem formatDateTime_ne_empty (d t : Nat × Nat × Nat) :
    formatDate d ++ "T" ++ formatTime t ++ "Z" ≠ "" := by
  intro h
  have hl := congrArg String.length h
  simp only [String.length_append,
    show ("Z" : String).length = 1 from rfl, show ("" : String).length = 0 from rfl] at hl
  omega

/-- C3: temporal normalization is total and canonical.  The concrete cases of
the spec hold: a date-only field `"2023-03-05"` maps to itself, a timestamp
field `"2023-03-05 14:30:00"` maps to `"2023-03-05T14:30:00Z"` (naive input
read as UTC), and `"not-a-date"` and `""` map to the absent marker.  Moreover
for every input value each normalizer yields either the absent marker
(`null`) or a nonempty canonical string — never an empty string, and (being a
total function) never an error. -/
theorem temporal_normalization :
    to_date_str (Val.str "2023-03-05") = Val.str "2023-03-05" ∧
    to_datetime_str (Val.str "2023-03-05 14:30:00") = Val.str "2023-03-05T14:30:00Z" ∧
    to_date_str (Val.str "not-a-date") = Val.null ∧
    to_datetime_str (Val.str "not-a-date") = Val.null ∧
    to_date_str (Val.str "") = Val.null ∧
    to_datetime_str (Val.str "") = Val.null ∧
    (∀ v : Val, to_date_str v = Val.null ∨ ∃ s, to_date_str v = Val.str s ∧ s ≠ "") ∧
    (∀ v : Val, to_datetime_str v = Val.null ∨ ∃ s, to_datetime_str v = Val.str s ∧ s ≠ "") := by
  refine ⟨by decide, by decide, by decide, by decide, by decide, by decide, ?_, ?_⟩
  · intro v
    unfold to_date_str
    cases hp : parseTemporal (stripChars (valToStr v).toList) with
    | none => exact Or.inl rfl
    | some dt =>
      exact Or.inr ⟨formatDate dt.1, rfl, formatDate_ne_empty dt.1⟩
  · intro v
    unfold to_datetime_str
    cases hp : parseTemporal (stripChars (valToStr v).toList) with
    | none => exact Or.inl rfl
    | some dt =>
      exact Or.inr ⟨_, rfl, formatDateTime_ne_empty dt.1 dt.2⟩

/-! ## Readiness gate (C5) -/

theorem awaitFrom_fail {E : Type} (f : Nat → E) (p : Nat → Except E Unit)
    (hp : ∀ n, p n = Except.error (f n)) (timeout : Nat) :
    ∀ k t, t + k = timeout + 1 →
      awaitFrom p timeout t = AwaitResult.err (f (timeout + 1)) (timeout + 1) := by
  intro k
  induction k with
  | zero =>
    intro t ht
    have h : t = timeout + 1 := by omega
    subst h
    rw [awaitFrom]
    simp only [hp]
    rw [if_pos (by omega)]
  | succ k ih =>
    intro t ht
    rw [awaitFrom]
    simp only [hp]
    rw [if_neg (by omega)]
    exact ih (t + 1) (by omega)

/-- C5: the readiness wait loop.  With a probe that fails at every attempt,
`await_ready` terminates by re-raising the last failure (the one at elapsed
time `timeout + 1`), and the elapsed time at the raise strictly exceeds the
timeout but is at most one retry interval beyond it — never before the
timeout and not unboundedly after, with a fixed one-unit sleep between
retries.  A probe that succeeds on the first attempt returns immediately at
elapsed time 0. -/
theorem await_ready_spec {E : Type} (timeout : Nat) (f : Nat → E)
    (p q : Nat → Except E Unit)
    (hp : ∀ n, p n = Except.error (f n)) (hq : q 0 = Except.ok ()) :
    await_ready p timeout = AwaitResult.err (f (timeout + 1)) (timeout + 1) ∧
    (∀ e n, await_ready p timeout = AwaitResult.err e n →
      timeout < n ∧ n ≤ timeout + 1) ∧
    await_ready q timeout = AwaitResult.ok 0 := by
  have h1 : await_ready p timeout = AwaitResult.err (f (timeout + 1)) (timeout + 1) :=
    awaitFrom_fail f p hp timeout (timeout + 1) 0 (by omega)
  refine ⟨h1, ?_, ?_⟩
  · intro e n hn
    rw [h1] at hn
    have h2 : n = timeout + 1 := (AwaitResult.err.injEq _ _ _ _).mp hn.symm |>.2
    omega
  · rw [await_ready, awaitFrom]
    simp only [hq]

/-- Witness for C5 with timeout 2: the always-failing probe raises its
attempt-3 failure at elapsed time 3, and the immediately-succeeding probe
returns at elapsed time 0. -/
theorem await_ready_spec_witness :
    await_ready (fun n => (Except.error n : Except Nat Unit)) 2 = AwaitResult.err 3 3 ∧
    await_ready (fun _ => (Except.ok () : Except Nat Unit)) 2 = AwaitResult.ok 0 := by
  have h := await_ready_spec 2 (fun n => n) (fun n => Except.error n)
    (fun _ => Except.ok ()) (fun _ => rfl) rfl
  exact ⟨h.1, h.2.2⟩

/-! ## Extractor resource release (C9) -/

theorem readTables_trace_reads (db : String → Except String Table) :
    ∀ ns, ∀ ev ∈ (readTables db ns).2, ∃ n, ev = PgEv.readTable n := by
  intro ns
  induction ns with
  | nil => simp [readTables]
  | cons n ns ih =>
    intro ev hev
    simp only [readTables] at hev
    cases hdb : db n with
    | ok tbl =>
      rw [hdb] at hev
      simp only [List.mem_cons] at hev
      rcases hev with h | h
      · exact ⟨n, h⟩
      · exact ih ev h
    | error e =>
      rw [hdb] at hev
      simp only [List.mem_cons, List.not_mem_nil, or_false] at hev
      exact ⟨n, hev⟩

theorem readTables_all_ok (db : String → Except String Table) :
    ∀ ns, (∀ n ∈ ns, ∃ t, db n = Except.ok t) →
      (∃ out, (readTables db ns).1 = Except.ok out) ∧
      (readTables db ns).2 = ns.map PgEv.readTable := by
  intro ns
  induction ns with
  | nil => exact fun _ => ⟨⟨[], rfl⟩, rfl⟩
  | cons n ns ih =>
    intro h
    obtain ⟨t, ht⟩ := h n (List.mem_cons_self n ns)
    obtain ⟨⟨out, hout⟩, htr⟩ := ih (fun n2 hn2 => h n2 (List.mem_cons_of_mem n hn2))
    constructor
    · refine ⟨(n, t) :: out, ?_⟩
      simp only [readTables, ht]
      rw [hout]
      rfl
    · simp only [readTables, ht, htr, List.map_cons]

/-- C9 (amended): `extract_postgres` creates exactly one engine per
invocation; when all six reads succeed it performs the reads in order and
disposes the engine exactly once, after the reads; but when any read fails
the error propagates with the engine created and never disposed — release is
not guaranteed on the failure path (there is no try/finally). -/
theorem extract_postgres_release (db : String → Except String Table) :
    ((∀ n ∈ tableNames, ∃ t, db n = Except.ok t) →
      (extract_postgres db).2 =
        PgEv.createEngine :: (tableNames.map PgEv.readTable ++ [PgEv.disposeEngine])) ∧
    (∀ e, (extract_postgres db).1 = Except.error e →
      PgEv.createEngine ∈ (extract_postgres db).2 ∧
      PgEv.disposeEngine ∉ (extract_postgres db).2) := by
  constructor
  · intro h
    obtain ⟨⟨out, hout⟩, htr⟩ := readTables_all_ok db tableNames h
    have hpair : readTables db tableNames = (Except.ok out, tableNames.map PgEv.readTable) := by
      rw [← hout, ← htr]
    simp only [extract_postgres, hpair]
  · intro e he
    rcases hpair : readTables db tableNames with ⟨res, tr⟩
    have htr : ∀ ev ∈ tr, ∃ n, ev = PgEv.readTable n := by
      intro ev hev
      apply readTables_trace_reads db tableNames
      rw [hpair]
      exact hev
    rcases res with e2 | out
    · have h2 : (extract_postgres db).2 = PgEv.createEngine :: tr := by
        simp only [extract_postgres, hpair]
      rw [h2]
      refine ⟨List.mem_cons_self _ _, ?_⟩
      intro hmem
      rcases List.mem_cons.mp hmem with h | h
      · exact PgEv.noConfusion h
      · obtain ⟨n, hn⟩ := htr _ h
        exact PgEv.noConfusion hn
    · have h1 : (extract_postgres db).1 = Except.ok out := by
        simp only [extract_postgres, hpair]
      rw [h1] at he
      exact Except.noConfusion he

/-- Counterexample to C9 as stated: with a source whose first read fails, the
call propagates the error while the engine was created but never disposed —
the connection resource is not released on this outcome. -/
theorem extract_postgres_counterexample :
    (extract_postgres (fun _ => Except.error "connection refused")).1 =
      Except.error "connection refused" ∧
    PgEv.createEngine ∈ (extract_postgres (fun _ => Except.error "connection refused")).2 ∧
    PgEv.disposeEngine ∉ (extract_postgres (fun _ => Except.error "connection refused")).2 := by
  refine ⟨rfl, by decide, by decide⟩

/-- Witness for C9's amended theorem: a fully-successful source yields the
create/read.../dispose trace; a failing source yields a trace without the
dispose event. -/
theorem extract_postgres_release_witness :
    (extract_postgres (fun _ => Except.ok (Table.mk [] []))).2 =
      PgEv.createEngine :: (tableNames.map PgEv.readTable ++ [PgEv.disposeEngine]) ∧
    PgEv.disposeEngine ∉ (extract_postgres (fun _ => Except.error "boom")).2 := by
  refine ⟨(extract_postgres_release _).1 (fun n _ => ⟨Table.mk [] [], rfl⟩), ?_⟩
  exact ((extract_postgres_release (fun _ => Except.error "boom")).2 "boom" (by rfl)).2

/-! ## Liveness endpoint (C10) -/

/-- C10: the liveness endpoint returns `true` exactly when both the fresh
source-store round trip and the fresh graph-store round trip fully succeed;
every failure mode (connection error or query error) of either probe makes
the corresponding probe function return `false` rather than propagate, so the
endpoint is a total boolean. -/
theorem health_spec (wp wn : StoreWorld) :
    (health wp wn = true ↔
      (wp.connect = Except.ok () ∧ wp.query = Except.ok () ∧
       wn.connect = Except.ok () ∧ wn.query = Except.ok ())) ∧
    (∀ e, wp.connect = Except.error e → pg_ok wp = false) ∧
    (∀ e, wp.query = Except.error e → pg_ok wp = false) ∧
    (∀ e, wn.connect = Except.error e → neo4j_ok wn = false) ∧
    (∀ e, wn.query = Except.error e → neo4j_ok wn = false) := by
  rcases wp with ⟨pc, pq⟩
  rcases wn with ⟨nc, nq⟩
  rcases pc with e1 | ⟨⟩ <;> rcases pq with e2 | ⟨⟩ <;>
    rcases nc with e3 | ⟨⟩ <;> rcases nq with e4 | ⟨⟩ <;>
      simp [health, pg_ok, neo4j_ok, pgBody, neo4jBody]

/-- Witness for C10: the all-healthy world reports `true`; a world whose
source connection fails makes `pg_ok` return `false` (no exception). -/
theorem health_spec_witness :
    health ⟨Except.ok (), Except.ok ()⟩ ⟨Except.ok (), Except.ok ()⟩ = true ∧
    pg_ok ⟨Except.error "down", Except.ok ()⟩ = false := by
  refine ⟨(health_spec _ _).1.mpr ⟨rfl, rfl, rfl, rfl⟩, ?_⟩
  exact (health_spec ⟨Except.error "down", Except.ok ()⟩ ⟨Except.ok (), Except.ok ()⟩).2.1 "down" rfl

/-! ## Normalizer frame (C8) -/

theorem find_overwrite {β : Type} (l : List (String × β)) (k : String) (v : β) (k2 : String) :
    (l.map (fun p => if p.1 = k then (k, v) else p)).find? (fun p => decide (p.1 = k2)) =
      if k2 = k then (l.find? (fun p => decide (p.1 = k))).map (fun _ => (k, v))
      else l.find? (fun p => decide (p.1 = k2)) := by
  by_cases h2 : k2 = k
  · subst h2
    rw [if_pos rfl]
    induction l with
    | nil => rfl
    | cons a l ih =>
      by_cases ha : a.1 = k2
      · rw [List.map_cons, if_pos ha]
        rw [List.find?_cons_of_pos _ (by simp), List.find?_cons_of_pos _ (by simp [ha])]
        rfl
      · rw [List.map_cons, if_neg ha]
        rw [List.find?_cons_of_neg _ (by simp [ha]), List.find?_cons_of_neg _ (by simp [ha])]
        exact ih
  · rw [if_neg h2]
    induction l with
    | nil => rfl
    | cons a l ih =>
      by_cases ha : a.1 = k
      · rw [List.map_cons, if_pos ha]
        rw [List.find?_cons_of_neg _ (by simp; exact fun hh => h2 hh.symm),
          List.find?_cons_of_neg _ (by simp [ha]; exact fun hh => h2 hh.symm)]
        exact ih
      · rw [List.map_cons, if_neg ha]
        by_cases h3 : a.1 = k2
        · rw [List.find?_cons_of_pos _ (by simp [h3]), List.find?_cons_of_pos _ (by simp [h3])]
        · rw [List.find?_cons_of_neg _ (by simp [h3]), List.find?_cons_of_neg _ (by simp [h3])]
          exact ih

theorem dictGet_dictSet (ts : Tables) (k : String) (v : Table) (k2 : String) :
    dictGet (dictSet ts k v) k2 =
      if k2 = k then (dictGet ts k).map (fun _ => v) else dictGet ts k2 := by
  unfold dictGet dictSet
  rw [find_overwrite]
  by_cases h : k2 = k
  · rw [if_pos h, if_pos h]
    cases List.find? (fun p => decide (p.1 = k)) ts <;> rfl
  · rw [if_neg h, if_neg h]

theorem dictSet_keys (ts : Tables) (k : String) (v : Table) :
    (dictSet ts k v).map Prod.fst = ts.map Prod.fst := by
  unfold dictSet
  rw [List.map_map]
  apply List.map_congr_left
  intro p _
  by_cases h : p.1 = k <;> simp [h]

theorem normStep_get (ts : Tables) (name col : String) (fn : Val → Val) (k : String) :
    dictGet (normStep ts name col fn) k =
      if k = name then
        (dictGet ts name).map (fun tbl => if col ∈ tbl.cols then mapColumn tbl col fn else tbl)
      else dictGet ts k := by
  cases h : dictGet ts name with
  | none =>
    simp only [normStep, h]
    by_cases hk : k = name
    · simp [hk, h]
    · simp [hk]
  | some tbl =>
    simp only [normStep, h]
    by_cases hc : col ∈ tbl.cols
    · rw [if_pos hc, dictGet_dictSet]
      by_cases hk : k = name
      · simp [hk, h, hc]
      · simp [hk]
    · rw [if_neg hc]
      by_cases hk : k = name
      · simp [hk, h, hc]
      · simp [hk]

theorem normStep_keys (ts : Tables) (name col : String) (fn : Val → Val) :
    (normStep ts name col fn).map Prod.fst = ts.map Prod.fst := by
  cases h : dictGet ts name with
  | none => simp only [normStep, h]
  | some tbl =>
    simp only [normStep, h]
    by_cases hc : col ∈ tbl.cols
    · rw [if_pos hc, dictSet_keys]
    · rw [if_neg hc]

theorem normalize_tables_get (ts : Tables) (n : String) :
    dictGet (normalize_tables ts) n =
      if n = "customers" then
        (dictGet ts n).map (fun tbl =>
          if "join_date" ∈ tbl.cols then mapColumn tbl "join_date" to_date_str else tbl)
      else if n = "orders" then
        (dictGet ts n).map (fun tbl =>
          if "ts" ∈ tbl.cols then mapColumn tbl "ts" to_datetime_str else tbl)
      else if n = "events" then
        (dictGet ts n).map (fun tbl =>
          if "ts" ∈ tbl.cols then mapColumn tbl "ts" to_datetime_str else tbl)
      else dictGet ts n := by
  unfold normalize_tables
  simp only [normStep_get]
  by_cases h1 : n = "customers"
  · have h2 : ¬ n = "orders" := by rw [h1]; decide
    have h3 : ¬ n = "events" := by rw [h1]; decide
    simp [h1, h2, h3]
  · by_cases h2 : n = "orders"
    · have h3 : ¬ n = "events" := by rw [h2]; decide
      simp [h1, h2, h3]
    · by_cases h3 : n = "events"
      · simp [h1, h2, h3]
      · simp [h1, h2, h3]

theorem rowGet_rowSet_self (r : Row) (f : String) (v : Val) :
    rowGet (rowSet r f v) f = v := by
  unfold rowGet rowSet
  by_cases h : r.any (fun p => decide (p.1 = f)) = true
  · rw [if_pos h, find_overwrite, if_pos rfl]
    cases hf : r.find? (fun p => decide (p.1 = f)) with
    | none =>
      obtain ⟨p, hp, hpf⟩ := List.any_eq_true.mp h
      exact absurd hpf (List.find?_eq_none.mp hf p hp)
    | some p => rfl
  · rw [if_neg h, List.find?_append]
    have hn : r.find? (fun p => decide (p.1 = f)) = none := by
      rw [List.find?_eq_none]
      intro x hx
      exact fun hpx => h (List.any_eq_true.mpr ⟨x, hx, hpx⟩)
    rw [hn]
    simp

theorem rowGet_rowSet_ne (r : Row) (f f2 : String) (v : Val) (h : f2 ≠ f) :
    rowGet (rowSet r f v) f2 = rowGet r f2 := by
  unfold rowGet rowSet
  by_cases ha : r.any (fun p => decide (p.1 = f)) = true
  · rw [if_pos ha, find_overwrite, if_neg h]
  · rw [if_neg ha, List.find?_append]
    have h1 : List.find? (fun p => decide (p.1 = f2)) [(f, v)] = none := by
      simp
      exact fun hh => h hh.symm
    rw [h1]
    cases List.find? (fun p => decide (p.1 = f2)) r <;> rfl

/-- C8: `normalize_tables` is a pure frame-preserving rewrite.  The output
mapping has the same table names in the same order; every table other than
`customers`, `orders`, `events` is returned unchanged; each of those three,
when present, is returned with exactly its temporal column rewritten
elementwise (`join_date` by the date normalizer, `ts` by the datetime
normalizer) and is skipped without error when the table or the column is
absent; `mapColumn` keeps the column list and the row count, rewrites the
targeted field of each row to the normalizer's output, and leaves every
other field of every row unchanged.  (The embedding is a pure function, so
the input mapping is never mutated by construction.) -/
theorem normalize_tables_spec (ts : Tables) :
    ((normalize_tables ts).map Prod.fst = ts.map Prod.fst) ∧
    (∀ n, n ≠ "customers" → n ≠ "orders" → n ≠ "events" →
      dictGet (normalize_tables ts) n = dictGet ts n) ∧
    (∀ tbl, dictGet ts "customers" = some tbl →
      dictGet (normalize_tables ts) "customers" =
        some (if "join_date" ∈ tbl.cols then mapColumn tbl "join_date" to_date_str else tbl)) ∧
    (∀ tbl, dictGet ts "orders" = some tbl →
      dictGet (normalize_tables ts) "orders" =
        some (if "ts" ∈ tbl.cols then mapColumn tbl "ts" to_datetime_str else tbl)) ∧
    (∀ tbl, dictGet ts "events" = some tbl →
      dictGet (normalize_tables ts) "events" =
        some (if "ts" ∈ tbl.cols then mapColumn tbl "ts" to_datetime_str else tbl)) ∧
    (∀ n, dictGet ts n = none → dictGet (normalize_tables ts) n = none) ∧
    (∀ tbl f fn, (mapColumn tbl f fn).cols = tbl.cols ∧
      (mapColumn tbl f fn).rows.length = tbl.rows.length ∧
      ∀ r ∈ tbl.rows, rowGet (rowSet r f (fn (rowGet r f))) f = fn (rowGet r f) ∧
        ∀ f2, f2 ≠ f → rowGet (rowSet r f (fn (rowGet r f))) f2 = rowGet r f2) := by
  refine ⟨?_, ?_, ?_, ?_, ?_, ?_, ?_⟩
  · unfold normalize_tables
    rw [normStep_keys, normStep_keys, normStep_keys]
  · intro n h1 h2 h3
    rw [normalize_tables_get, if_neg h1, if_neg h2, if_neg h3]
  · intro tbl h
    rw [normalize_tables_get, if_pos rfl, h]
    rfl
  · intro tbl h
    rw [normalize_tables_get]
    rw [if_neg (by decide), if_pos rfl, h]
    rfl
  · intro tbl h
    rw [normalize_tables_get]
    rw [if_neg (by decide), if_neg (by decide), if_pos rfl, h]
    rfl
  · intro n h
    rw [normalize_tables_get, h]
    simp
  · intro tbl f fn
    refine ⟨rfl, by simp [mapColumn], ?_⟩
    intro r _
    exact ⟨rowGet_rowSet_self r f (fn (rowGet r f)),
      fun f2 hf2 => rowGet_rowSet_ne r f f2 (fn (rowGet r f)) hf2⟩

/-- Witness for C8 on a concrete mapping: a customers table with a
`join_date` column is rewritten columnwise, an unrelated table is returned
unchanged, and a mapping without the `orders` table is skipped silently. -/
theorem normalize_tables_spec_witness :
    dictGet (normalize_tables
        [("customers", Table.mk ["id", "join_date"] [[("id", Val.int 1), ("join_date", Val.str "2023-03-05")]]),
         ("extra", Table.mk ["x"] [])]) "customers" =
      some (mapColumn (Table.mk ["id", "join_date"] [[("id", Val.int 1), ("join_date", Val.str "2023-03-05")]])
        "join_date" to_date_str) ∧
    dictGet (normalize_tables
        [("customers", Table.mk ["id", "join_date"] [[("id", Val.int 1), ("join_date", Val.str "2023-03-05")]]),
         ("extra", Table.mk ["x"] [])]) "extra" =
      some (Table.mk ["x"] []) ∧
    dictGet (normalize_tables
        [("customers", Table.mk ["id", "join_date"] [[("id", Val.int 1), ("join_date", Val.str "2023-03-05")]]),
         ("extra", Table.mk ["x"] [])]) "orders" = none := by
  have h := normalize_tables_spec
    [("customers", Table.mk ["id", "join_date"] [[("id", Val.int 1), ("join_date", Val.str "2023-03-05")]]),
     ("extra", Table.mk ["x"] [])]
  refine ⟨?_, ?_, ?_⟩
  · have h2 := h.2.2.1 (Table.mk ["id", "join_date"] [[("id", Val.int 1), ("join_date", Val.str "2023-03-05")]]) (by rfl)
    rw [h2, if_pos (by decide)]
  · exact (h.2.1 "extra" (by decide) (by decide) (by decide)).trans (by rfl)
  · exact h.2.2.2.2.2.1 "orders" (by rfl)

/-! ## Graph and property map lemmas -/

theorem Graph.ext2 {a b : Graph} (h1 : ∀ k, a.nodes k = b.nodes k)
    (h2 : ∀ k, a.edges k = b.edges k) : a = b := by
  cases a
  cases b
  simp only [Graph.mk.injEq]
  exact ⟨funext h1, funext h2⟩

theorem setProps_nil (p : Props) : setProps p [] = p := rfl

theorem setProps_apply_not_mem (u : List (String × Val)) (p : Props) (f : String)
    (h : f ∉ u.map Prod.fst) : setProps p u f = p f := by
  induction u generalizing p with
  | nil => rfl
  | cons kv u ih =>
    have hne : f ≠ kv.1 := by
      intro hh
      exact h (by simp [hh])
    have htl : f ∉ u.map Prod.fst := by
      intro hh
      exact h (by simp [hh])
    show setProps (setProp p kv.1 kv.2) u f = p f
    rw [ih (setProp p kv.1 kv.2) htl]
    unfold setProp
    rw [if_neg hne]

theorem setProps_apply_mem (u : List (String × Val)) (p q : Props) (f : String)
    (h : f ∈ u.map Prod.fst) : setProps p u f = setProps q u f := by
  induction u generalizing p q with
  | nil => simp at h
  | cons kv u ih =>
    by_cases htl : f ∈ u.map Prod.fst
    · exact ih (setProp p kv.1 kv.2) (setProp q kv.1 kv.2) htl
    · have hh : f = kv.1 := by
        rw [List.map_cons, List.mem_cons] at h
        rcases h with h1 | h1
        · exact h1
        · exact absurd h1 htl
      show setProps (setProp p kv.1 kv.2) u f = setProps (setProp q kv.1 kv.2) u f
      rw [setProps_apply_not_mem u _ f htl, setProps_apply_not_mem u _ f htl]
      unfold setProp
      rw [if_pos hh, if_pos hh]

theorem setProps_cancel (u u2 : List (String × Val)) (p : Props)
    (hf : u.map Prod.fst = u2.map Prod.fst) :
    setProps (setProps p u) u2 = setProps p u2 := by
  funext f
  by_cases hm : f ∈ u2.map Prod.fst
  · exact setProps_apply_mem u2 (setProps p u) p f hm
  · rw [setProps_apply_not_mem u2 _ f hm, setProps_apply_not_mem u2 _ f hm,
      setProps_apply_not_mem u _ f (hf ▸ hm)]

theorem getLast?_cons_of_ne_nil {α : Type} (x : α) {l : List α} (h : l ≠ []) :
    (x :: l).getLast? = l.getLast? := by
  cases l with
  | nil => exact absurd rfl h
  | cons a l2 => simp

theorem foldl_flatten (act : Graph → Row → Graph) :
    ∀ (L : List (List Row)) (g : Graph),
      L.foldl (fun g2 b => b.foldl act g2) g = L.flatten.foldl act g := by
  intro L
  induction L with
  | nil => intro g; rfl
  | cons b L ih =>
    intro g
    rw [List.foldl_cons, ih, List.flatten_cons, List.foldl_append]

theorem runBatched_eq (g : Graph) (rows : List Row) (act : Graph → Row → Graph) :
    runBatched g rows act = rows.foldl act g := by
  unfold runBatched
  rw [foldl_flatten, chunk_flatten]

/-! ## Generic fold characterizations -/

theorem foldl_nodes_char (a : Graph → Row → Graph) (key : Row → NodeKey)
    (upd : Row → List (String × Val))
    (ha : ∀ (g : Graph) (r : Row) (k2 : NodeKey), (a g r).nodes k2 =
      if k2 = key r then some (setProps ((g.nodes (key r)).getD emptyProps) (upd r))
      else g.nodes k2)
    (hf : ∀ r r2, (upd r).map Prod.fst = (upd r2).map Prod.fst) :
    ∀ (rows : List Row) (g : Graph) (k : NodeKey),
      (rows.foldl a g).nodes k =
        charUpd (g.nodes k) upd (lastWith rows (fun r => decide (key r = k))) := by
  intro rows
  induction rows with
  | nil => intro g k; rfl
  | cons r rs ih =>
    intro g k
    rw [List.foldl_cons, ih (a g r) k]
    by_cases hk : key r = k
    · have hpred : (fun r2 => decide (key r2 = k)) r = true := by simp [hk]
      have hmain : (a g r).nodes k = some (setProps ((g.nodes k).getD emptyProps) (upd r)) := by
        rw [ha g r k, if_pos hk.symm, hk]
      cases hfl : (rs.filter (fun r2 => decide (key r2 = k))).getLast? with
      | none =>
        have hl1 : lastWith rs (fun r2 => decide (key r2 = k)) = none := hfl
        have hl2 : lastWith (r :: rs) (fun r2 => decide (key r2 = k)) = some r := by
          unfold lastWith
          rw [List.filter_cons, if_pos hpred, List.getLast?_eq_none_iff.mp hfl]
          rfl
        rw [hl1, hl2]
        exact hmain
      | some r2 =>
        have hl1 : lastWith rs (fun r3 => decide (key r3 = k)) = some r2 := hfl
        have hne : rs.filter (fun r3 => decide (key r3 = k)) ≠ [] := by
          intro hh
          rw [hh] at hfl
          exact Option.noConfusion hfl
        have hl2 : lastWith (r :: rs) (fun r3 => decide (key r3 = k)) = some r2 := by
          unfold lastWith
          rw [List.filter_cons, if_pos hpred, getLast?_cons_of_ne_nil r hne]
          exact hfl
        rw [hl1, hl2]
        show some (setProps (((a g r).nodes k).getD emptyProps) (upd r2)) =
          some (setProps ((g.nodes k).getD emptyProps) (upd r2))
        rw [hmain]
        show some (setProps (setProps ((g.nodes k).getD emptyProps) (upd r)) (upd r2)) = _
        rw [setProps_cancel (upd r) (upd r2) _ (hf r r2)]
    · have hstep : (a g r).nodes k = g.nodes k := by
        rw [ha g r k, if_neg (fun hh => hk hh.symm)]
      have hl : lastWith (r :: rs) (fun r2 => decide (key r2 = k)) =
          lastWith rs (fun r2 => decide (key r2 = k)) := by
        unfold lastWith
        rw [List.filter_cons, if_neg (by simp [hk])]
      rw [hl, hstep]

theorem foldl_edges_char (a : Graph → Row → Graph) (ekey : Row → EdgeKey)
    (cond : Graph → Row → Bool) (upd : Row → List (String × Val))
    (ha : ∀ (g : Graph) (r : Row) (k2 : EdgeKey), (a g r).edges k2 =
      if decide (k2 = ekey r) && cond g r then
        some (setProps ((g.edges (ekey r)).getD emptyProps) (upd r))
      else g.edges k2)
    (hcond : ∀ g r r2, cond (a g r2) r = cond g r)
    (hf : ∀ r r2, (upd r).map Prod.fst = (upd r2).map Prod.fst) :
    ∀ (rows : List Row) (g : Graph) (k : EdgeKey),
      (rows.foldl a g).edges k =
        charUpd (g.edges k) upd
          (lastWith rows (fun r => decide (ekey r = k) && cond g r)) := by
  intro rows
  induction rows with
  | nil => intro g k; rfl
  | cons r rs ih =>
    intro g k
    rw [List.foldl_cons, ih (a g r) k]
    have hpeq : (fun r2 => decide (ekey r2 = k) && cond (a g r) r2) =
        (fun r2 => decide (ekey r2 = k) && cond g r2) := by
      funext r2
      rw [hcond]
    rw [hpeq]
    by_cases hk : (decide (ekey r = k) && cond g r) = true
    · have hk2 : ekey r = k ∧ cond g r = true := by simpa using hk
      obtain ⟨hek, hc⟩ := hk2
      have hmain : (a g r).edges k = some (setProps ((g.edges k).getD emptyProps) (upd r)) := by
        rw [ha g r k, if_pos (by simp [hek, hc]), hek]
      cases hfl : (rs.filter (fun r2 => decide (ekey r2 = k) && cond g r2)).getLast? with
      | none =>
        have hl1 : lastWith rs (fun r2 => decide (ekey r2 = k) && cond g r2) = none := hfl
        have hl2 : lastWith (r :: rs) (fun r2 => decide (ekey r2 = k) && cond g r2) = some r := by
          unfold lastWith
          rw [List.filter_cons, if_pos hk, List.getLast?_eq_none_iff.mp hfl]
          rfl
        rw [hl1, hl2]
        exact hmain
      | some r2 =>
        have hl1 : lastWith rs (fun r3 => decide (ekey r3 = k) && cond g r3) = some r2 := hfl
        have hne : rs.filter (fun r3 => decide (ekey r3 = k) && cond g r3) ≠ [] := by
          intro hh
          rw [hh] at hfl
          exact Option.noConfusion hfl
        have hl2 : lastWith (r :: rs) (fun r3 => decide (ekey r3 = k) && cond g r3) = some r2 := by
          unfold lastWith
          rw [List.filter_cons, if_pos hk, getLast?_cons_of_ne_nil r hne]
          exact hfl
        rw [hl1, hl2]
        show some (setProps (((a g r).edges k).getD emptyProps) (upd r2)) =
          some (setProps ((g.edges k).getD emptyProps) (upd r2))
        rw [hmain]
        show some (setProps (setProps ((g.edges k).getD emptyProps) (upd r)) (upd r2)) = _
        rw [setProps_cancel (upd r) (upd r2) _ (hf r r2)]
    · have hstep : (a g r).edges k = g.edges k := by
        rw [ha g r k]
        rw [if_neg ?hneg]
        case hneg =>
          intro hh
          apply hk
          have hh2 : k = ekey r ∧ cond g r = true := by simpa using hh
          simp [hh2.1, hh2.2]
      have hl : lastWith (r :: rs) (fun r2 => decide (ekey r2 = k) && cond g r2) =
          lastWith rs (fun r2 => decide (ekey r2 = k) && cond g r2) := by
        unfold lastWith
        rw [List.filter_cons, if_neg hk]
      rw [hl, hstep]

theorem foldl_nodes_frame (a : Graph → Row → Graph)
    (hn : ∀ g r, (a g r).nodes = g.nodes) :
    ∀ (rows : List Row) (g : Graph), (rows.foldl a g).nodes = g.nodes := by
  intro rows
  induction rows with
  | nil => intro g; rfl
  | cons r rs ih =>
    intro g
    rw [List.foldl_cons, ih (a g r), hn]

theorem foldl_edges_frame (a : Graph → Row → Graph)
    (he : ∀ g r, (a g r).edges = g.edges) :
    ∀ (rows : List Row) (g : Graph), (rows.foldl a g).edges = g.edges := by
  intro rows
  induction rows with
  | nil => intro g; rfl
  | cons r rs ih =>
    intro g
    rw [List.foldl_cons, ih (a g r), he]

/-! ## Per-step characterizations -/

theorem upsertNode_nodes (g : Graph) (k : NodeKey) (u : List (String × Val)) (k2 : NodeKey) :
    (upsertNode g k u).nodes k2 =
      if k2 = k then some (setProps ((g.nodes k).getD emptyProps) u) else g.nodes k2 := rfl

theorem upsertNode_edges (g : Graph) (k : NodeKey) (u : List (String × Val)) :
    (upsertNode g k u).edges = g.edges := rfl

theorem upsertEdge_nodes (g : Graph) (k : EdgeKey) (u : List (String × Val)) :
    (upsertEdge g k u).nodes = g.nodes := rfl

theorem upsertEdge_edges (g : Graph) (k : EdgeKey) (u : List (String × Val)) (k2 : EdgeKey) :
    (upsertEdge g k u).edges k2 =
      if k2 = k then some (setProps ((g.edges k).getD emptyProps) u) else g.edges k2 := rfl

theorem load_categories_nodes (g : Graph) (rows : List Row) (k : NodeKey) :
    (load_categories g rows).nodes k =
      charUpd (g.nodes k) (fun r => [("name", rowGet r "name")])
        (lastWith rows (fun r => decide ((⟨"Category", rowGet r "id"⟩ : NodeKey) = k))) := by
  unfold load_categories
  rw [runBatched_eq]
  exact foldl_nodes_char catAct (fun r => ⟨"Category", rowGet r "id"⟩)
    (fun r => [("name", rowGet r "name")]) (fun g r k2 => rfl) (fun r r2 => rfl) rows g k

theorem load_categories_edges (g : Graph) (rows : List Row) :
    (load_categories g rows).edges = g.edges := by
  unfold load_categories
  rw [runBatched_eq]
  exact foldl_edges_frame catAct (fun g r => rfl) rows g

theorem load_customers_nodes (g : Graph) (rows : List Row) (k : NodeKey) :
    (load_customers g rows).nodes k =
      charUpd (g.nodes k)
        (fun r => [("name", rowGet r "name"), ("join_date", guardDate (rowGet r "join_date"))])
        (lastWith rows (fun r => decide ((⟨"Customer", rowGet r "id"⟩ : NodeKey) = k))) := by
  unfold load_customers
  rw [runBatched_eq]
  exact foldl_nodes_char custAct (fun r => ⟨"Customer", rowGet r "id"⟩)
    (fun r => [("name", rowGet r "name"), ("join_date", guardDate (rowGet r "join_date"))])
    (fun g r k2 => rfl) (fun r r2 => rfl) rows g k

theorem load_customers_edges (g : Graph) (rows : List Row) :
    (load_customers g rows).edges = g.edges := by
  unfold load_customers
  rw [runBatched_eq]
  exact foldl_edges_frame custAct (fun g r => rfl) rows g

theorem prodAct_nodes (g : Graph) (r : Row) (k2 : NodeKey) :
    (prodAct g r).nodes k2 =
      if k2 = ⟨"Product", rowGet r "id"⟩ then
        some (setProps ((g.nodes ⟨"Product", rowGet r "id"⟩).getD emptyProps)
          [("name", rowGet r "name"), ("price", toFloatVal (rowGet r "price"))])
      else g.nodes k2 := by
  simp only [prodAct]
  split
  · rfl
  · rfl

theorem prodAct_edges (g : Graph) (r : Row) (k2 : EdgeKey) :
    (prodAct g r).edges k2 =
      if decide (k2 = (⟨"IN_CATEGORY", ⟨"Product", rowGet r "id"⟩,
            ⟨"Category", rowGet r "category_id"⟩⟩ : EdgeKey)) &&
          (g.nodes ⟨"Category", rowGet r "category_id"⟩).isSome then
        some (setProps ((g.edges (⟨"IN_CATEGORY", ⟨"Product", rowGet r "id"⟩,
          ⟨"Category", rowGet r "category_id"⟩⟩ : EdgeKey)).getD emptyProps) [])
      else g.edges k2 := by
  have hck : (upsertNode g ⟨"Product", rowGet r "id"⟩
      [("name", rowGet r "name"), ("price", toFloatVal (rowGet r "price"))]).nodes
      ⟨"Category", rowGet r "category_id"⟩ = g.nodes ⟨"Category", rowGet r "category_id"⟩ := by
    rw [upsertNode_nodes, if_neg (by simp)]
  simp only [prodAct, hck]
  by_cases h : (g.nodes ⟨"Category", rowGet r "category_id"⟩).isSome = true
  · rw [if_pos h]
    by_cases hk : k2 = (⟨"IN_CATEGORY", ⟨"Product", rowGet r "id"⟩,
        ⟨"Category", rowGet r "category_id"⟩⟩ : EdgeKey)
    · rw [upsertEdge_edges, if_pos hk, if_pos (by simp [hk, h])]
      rfl
    · rw [upsertEdge_edges, if_neg hk, if_neg (by simp [hk])]
      rfl
  · rw [if_neg h]
    rw [if_neg (fun hh => h (by simpa using hh : _ ∧ _).2)]
    rfl

theorem load_products_nodes (g : Graph) (rows : List Row) (k : NodeKey) :
    (load_products g rows).nodes k =
      charUpd (g.nodes k)
        (fun r => [("name", rowGet r "name"), ("price", toFloatVal (rowGet r "price"))])
        (lastWith rows (fun r => decide ((⟨"Product", rowGet r "id"⟩ : NodeKey) = k))) := by
  unfold load_products
  rw [runBatched_eq]
  exact foldl_nodes_char prodAct (fun r => ⟨"Product", rowGet r "id"⟩)
    (fun r => [("name", rowGet r "name"), ("price", toFloatVal (rowGet r "price"))])
    (fun g r k2 => prodAct_nodes g r k2) (fun r r2 => rfl) rows g k

theorem load_products_edges (g : Graph) (rows : List Row) (k : EdgeKey) :
    (load_products g rows).edges k =
      charUpd (g.edges k) (fun _ => [])
        (lastWith rows (fun r =>
          decide ((⟨"IN_CATEGORY", ⟨"Product", rowGet r "id"⟩,
            ⟨"Category", rowGet r "category_id"⟩⟩ : EdgeKey) = k) &&
          (g.nodes ⟨"Category", rowGet r "category_id"⟩).isSome)) := by
  unfold load_products
  rw [runBatched_eq]
  exact foldl_edges_char prodAct
    (fun r => ⟨"IN_CATEGORY", ⟨"Product", rowGet r "id"⟩, ⟨"Category", rowGet r "category_id"⟩⟩)
    (fun g r => (g.nodes ⟨"Category", rowGet r "category_id"⟩).isSome)
    (fun _ => [])
    (fun g r k2 => prodAct_edges g r k2)
    (fun g r r2 => by simp only [prodAct_nodes]; rw [if_neg (by simp)])
    (fun r r2 => rfl) rows g k

theorem ordAct_nodes (g : Graph) (r : Row) (k2 : NodeKey) :
    (ordAct g r).nodes k2 =
      if k2 = ⟨"Order", rowGet r "id"⟩ then
        some (setProps ((g.nodes ⟨"Order", rowGet r "id"⟩).getD emptyProps)
          [("ts", guardDT (rowGet r "ts"))])
      else g.nodes k2 := by
  simp only [ordAct]
  split
  · rfl
  · rfl

theorem ordAct_edges (g : Graph) (r : Row) (k2 : EdgeKey) :
    (ordAct g r).edges k2 =
      if decide (k2 = (⟨"PLACED", ⟨"Customer", rowGet r "customer_id"⟩,
            ⟨"Order", rowGet r "id"⟩⟩ : EdgeKey)) &&
          (g.nodes ⟨"Customer", rowGet r "customer_id"⟩).isSome then
        some (setProps ((g.edges (⟨"PLACED", ⟨"Customer", rowGet r "customer_id"⟩,
          ⟨"Order", rowGet r "id"⟩⟩ : EdgeKey)).getD emptyProps) [])
      else g.edges k2 := by
  have hck : (upsertNode g ⟨"Order", rowGet r "id"⟩
      [("ts", guardDT (rowGet r "ts"))]).nodes
      ⟨"Customer", rowGet r "customer_id"⟩ = g.nodes ⟨"Customer", rowGet r "customer_id"⟩ := by
    rw [upsertNode_nodes, if_neg (by simp)]
  simp only [ordAct, hck]
  by_cases h : (g.nodes ⟨"Customer", rowGet r "customer_id"⟩).isSome = true
  · rw [if_pos h]
    by_cases hk : k2 = (⟨"PLACED", ⟨"Customer", rowGet r "customer_id"⟩,
        ⟨"Order", rowGet r "id"⟩⟩ : EdgeKey)
    · rw [upsertEdge_edges, if_pos hk, if_pos (by simp [hk, h])]
      rfl
    · rw [upsertEdge_edges, if_neg hk, if_neg (by simp [hk])]
      rfl
  · rw [if_neg h]
    rw [if_neg (fun hh => h (by simpa using hh : _ ∧ _).2)]
    rfl

theorem load_orders_nodes (g : Graph) (rows : List Row) (k : NodeKey) :
    (load_orders g rows).nodes k =
      charUpd (g.nodes k) (fun r => [("ts", guardDT (rowGet r "ts"))])
        (lastWith rows (fun r => decide ((⟨"Order", rowGet r "id"⟩ : NodeKey) = k))) := by
  unfold load_orders
  rw [runBatched_eq]
  exact foldl_nodes_char ordAct (fun r => ⟨"Order", rowGet r "id"⟩)
    (fun r => [("ts", guardDT (rowGet r "ts"))])
    (fun g r k2 => ordAct_nodes g r k2) (fun r r2 => rfl) rows g k

theorem load_orders_edges (g : Graph) (rows : List Row) (k : EdgeKey) :
    (load_orders g rows).edges k =
      charUpd (g.edges k) (fun _ => [])
        (lastWith rows (fun r =>
          decide ((⟨"PLACED", ⟨"Customer", rowGet r "customer_id"⟩,
            ⟨"Order", rowGet r "id"⟩⟩ : EdgeKey) = k) &&
          (g.nodes ⟨"Customer", rowGet r "customer_id"⟩).isSome)) := by
  unfold load_orders
  rw [runBatched_eq]
  exact foldl_edges_char ordAct
    (fun r => ⟨"PLACED", ⟨"Customer", rowGet r "customer_id"⟩, ⟨"Order", rowGet r "id"⟩⟩)
    (fun g r => (g.nodes ⟨"Customer", rowGet r "customer_id"⟩).isSome)
    (fun _ => [])
    (fun g r k2 => ordAct_edges g r k2)
    (fun g r r2 => by simp only [ordAct_nodes]; rw [if_neg (by simp)])
    (fun r r2 => rfl) rows g k

theorem itemAct_nodes (g : Graph) (r : Row) : (itemAct g r).nodes = g.nodes := by
  simp only [itemAct]
  split
  · rfl
  · rfl

theorem itemAct_edges (g : Graph) (r : Row) (k2 : EdgeKey) :
    (itemAct g r).edges k2 =
      if decide (k2 = (⟨"CONTAINS", ⟨"Order", rowGet r "order_id"⟩,
            ⟨"Product", rowGet r "product_id"⟩⟩ : EdgeKey)) &&
          ((g.nodes ⟨"Order", rowGet r "order_id"⟩).isSome &&
           (g.nodes ⟨"Product", rowGet r "product_id"⟩).isSome) then
        some (setProps ((g.edges (⟨"CONTAINS", ⟨"Order", rowGet r "order_id"⟩,
          ⟨"Product", rowGet r "product_id"⟩⟩ : EdgeKey)).getD emptyProps)
          [("quantity", toIntVal (rowGet r "quantity"))])
      else g.edges k2 := by
  simp only [itemAct]
  by_cases h : ((g.nodes ⟨"Order", rowGet r "order_id"⟩).isSome &&
      (g.nodes ⟨"Product", rowGet r "product_id"⟩).isSome) = true
  · rw [if_pos h]
    by_cases hk : k2 = (⟨"CONTAINS", ⟨"Order", rowGet r "order_id"⟩,
        ⟨"Product", rowGet r "product_id"⟩⟩ : EdgeKey)
    · rw [upsertEdge_edges, if_pos hk, if_pos (by simp [hk, h])]
    · rw [upsertEdge_edges, if_neg hk, if_neg (by simp [hk])]
  · rw [if_neg h]
    rw [if_neg ?hneg]
    case hneg =>
      intro hh
      apply h
      have hh2 : k2 = (⟨"CONTAINS", ⟨"Order", rowGet r "order_id"⟩,
          ⟨"Product", rowGet r "product_id"⟩⟩ : EdgeKey) ∧
          ((g.nodes ⟨"Order", rowGet r "order_id"⟩).isSome = true ∧
           (g.nodes ⟨"Product", rowGet r "product_id"⟩).isSome = true) := by
        simpa using hh
      simp [hh2.2.1, hh2.2.2]

theorem eventAct_nodes (rel : String) (g : Graph) (r : Row) :
    (eventAct rel g r).nodes = g.nodes := by
  simp only [eventAct]
  split
  · rfl
  · rfl

theorem eventAct_edges (rel : String) (g : Graph) (r : Row) (k2 : EdgeKey) :
    (eventAct rel g r).edges k2 =
      if decide (k2 = (⟨rel, ⟨"Customer", rowGet r "customer_id"⟩,
            ⟨"Product", rowGet r "product_id"⟩⟩ : EdgeKey)) &&
          ((g.nodes ⟨"Customer", rowGet r "customer_id"⟩).isSome &&
           (g.nodes ⟨"Product", rowGet r "product_id"⟩).isSome) then
        some (setProps ((g.edges (⟨rel, ⟨"Customer", rowGet r "customer_id"⟩,
          ⟨"Product", rowGet r "product_id"⟩⟩ : EdgeKey)).getD emptyProps)
          [("ts", guardDT (rowGet r "ts"))])
      else g.edges k2 := by
  simp only [eventAct]
  by_cases h : ((g.nodes ⟨"Customer", rowGet r "customer_id"⟩).isSome &&
      (g.nodes ⟨"Product", rowGet r "product_id"⟩).isSome) = true
  · rw [if_pos h]
    by_cases hk : k2 = (⟨rel, ⟨"Customer", rowGet r "customer_id"⟩,
        ⟨"Product", rowGet r "product_id"⟩⟩ : EdgeKey)
    · rw [upsertEdge_edges, if_pos hk, if_pos (by simp [hk, h])]
    · rw [upsertEdge_edges, if_neg hk, if_neg (by simp [hk])]
  · rw [if_neg h]
    rw [if_neg ?hneg]
    case hneg =>
      intro hh
      apply h
      have hh2 : k2 = (⟨rel, ⟨"Customer", rowGet r "customer_id"⟩,
          ⟨"Product", rowGet r "product_id"⟩⟩ : EdgeKey) ∧
          ((g.nodes ⟨"Customer", rowGet r "customer_id"⟩).isSome = true ∧
           (g.nodes ⟨"Product", rowGet r "product_id"⟩).isSome = true) := by
        simpa using hh
      simp [hh2.2.1, hh2.2.2]

theorem load_order_items_nodes (g : Graph) (rows : List Row) :
    (load_order_items g rows).nodes = g.nodes := by
  unfold load_order_items
  rw [runBatched_eq]
  exact foldl_nodes_frame itemAct (fun g r => itemAct_nodes g r) rows g

theorem load_order_items_edges (g : Graph) (rows : List Row) (k : EdgeKey) :
    (load_order_items g rows).edges k =
      charUpd (g.edges k) (fun r => [("quantity", toIntVal (rowGet r "quantity"))])
        (lastWith rows (fun r =>
          decide ((⟨"CONTAINS", ⟨"Order", rowGet r "order_id"⟩,
            ⟨"Product", rowGet r "product_id"⟩⟩ : EdgeKey) = k) &&
          ((g.nodes ⟨"Order", rowGet r "order_id"⟩).isSome &&
           (g.nodes ⟨"Product", rowGet r "product_id"⟩).isSome))) := by
  unfold load_order_items
  rw [runBatched_eq]
  exact foldl_edges_char itemAct
    (fun r => ⟨"CONTAINS", ⟨"Order", rowGet r "order_id"⟩, ⟨"Product", rowGet r "product_id"⟩⟩)
    (fun g r => (g.nodes ⟨"Order", rowGet r "order_id"⟩).isSome &&
      (g.nodes ⟨"Product", rowGet r "product_id"⟩).isSome)
    (fun r => [("quantity", toIntVal (rowGet r "quantity"))])
    (fun g r k2 => itemAct_edges g r k2)
    (fun g r r2 => by simp only [itemAct_nodes])
    (fun r r2 => rfl) rows g k

theorem load_event_rel_nodes (rel : String) (g : Graph) (rows : List Row) :
    (load_event_rel rel g rows).nodes = g.nodes := by
  unfold load_event_rel
  rw [runBatched_eq]
  exact foldl_nodes_frame (eventAct rel) (fun g r => eventAct_nodes rel g r) rows g

theorem load_event_rel_edges (rel : String) (g : Graph) (rows : List Row) (k : EdgeKey) :
    (load_event_rel rel g rows).edges k =
      charUpd (g.edges k) (fun r => [("ts", guardDT (rowGet r "ts"))])
        (lastWith rows (fun r =>
          decide ((⟨rel, ⟨"Customer", rowGet r "customer_id"⟩,
            ⟨"Product", rowGet r "product_id"⟩⟩ : EdgeKey) = k) &&
          ((g.nodes ⟨"Customer", rowGet r "customer_id"⟩).isSome &&
           (g.nodes ⟨"Product", rowGet r "product_id"⟩).isSome))) := by
  unfold load_event_rel
  rw [runBatched_eq]
  exact foldl_edges_char (eventAct rel)
    (fun r => ⟨rel, ⟨"Customer", rowGet r "customer_id"⟩, ⟨"Product", rowGet r "product_id"⟩⟩)
    (fun g r => (g.nodes ⟨"Customer", rowGet r "customer_id"⟩).isSome &&
      (g.nodes ⟨"Product", rowGet r "product_id"⟩).isSome)
    (fun r => [("ts", guardDT (rowGet r "ts"))])
    (fun g r k2 => eventAct_edges rel g r k2)
    (fun g r r2 => by simp only [eventAct_nodes])
    (fun r r2 => rfl) rows g k

/-! ## lastWith and charUpd helpers -/

theorem lastWith_congr (rows : List Row) (p q : Row → Bool) (h : ∀ r ∈ rows, p r = q r) :
    lastWith rows p = lastWith rows q := by
  unfold lastWith
  rw [List.filter_congr h]

theorem lastWith_false (rows : List Row) (p : Row → Bool) (h : ∀ r ∈ rows, p r = false) :
    lastWith rows p = none := by
  unfold lastWith
  rw [List.filter_eq_nil_iff.mpr (fun r hr => by simp [h r hr])]
  rfl

theorem lastWith_isSome_any (rows : List Row) (p : Row → Bool) :
    (lastWith rows p).isSome = rows.any p := by
  unfold lastWith
  cases hfl : (rows.filter p).getLast? with
  | none =>
    have h1 : rows.filter p = [] := List.getLast?_eq_none_iff.mp hfl
    have h2 : rows.any p = false := by
      rw [List.any_eq_false]
      exact List.filter_eq_nil_iff.mp h1
    rw [h2]
    rfl
  | some r =>
    have h1 : r ∈ rows.filter p := List.mem_of_getLast?_eq_some hfl
    have h2 := List.mem_filter.mp h1
    have h3 : rows.any p = true := List.any_eq_true.mpr ⟨r, h2.1, h2.2⟩
    rw [h3]
    rfl

theorem charUpd_none (old : Option Props) (upd : Row → List (String × Val)) :
    charUpd old upd none = old := rfl

theorem charUpd_some (old : Option Props) (upd : Row → List (String × Val)) (r : Row) :
    charUpd old upd (some r) = some (setProps (old.getD emptyProps) (upd r)) := rfl

theorem charUpd_isSome (old : Option Props) (upd : Row → List (String × Val)) (r? : Option Row) :
    (charUpd old upd r?).isSome = (r?.isSome || old.isSome) := by
  cases r? with
  | none => cases old <;> rfl
  | some r => rfl

/-! ## Label/relationship frame corollaries -/

theorem load_categories_nodes_ne (g : Graph) (rows : List Row) (k : NodeKey)
    (h : k.label ≠ "Category") : (load_categories g rows).nodes k = g.nodes k := by
  rw [load_categories_nodes, lastWith_false]
  · rfl
  · intro r _
    exact decide_eq_false (fun hh => h (congrArg NodeKey.label hh).symm)

theorem load_customers_nodes_ne (g : Graph) (rows : List Row) (k : NodeKey)
    (h : k.label ≠ "Customer") : (load_customers g rows).nodes k = g.nodes k := by
  rw [load_customers_nodes, lastWith_false]
  · rfl
  · intro r _
    exact decide_eq_false (fun hh => h (congrArg NodeKey.label hh).symm)

theorem load_products_nodes_ne (g : Graph) (rows : List Row) (k : NodeKey)
    (h : k.label ≠ "Product") : (load_products g rows).nodes k = g.nodes k := by
  rw [load_products_nodes, lastWith_false]
  · rfl
  · intro r _
    exact decide_eq_false (fun hh => h (congrArg NodeKey.label hh).symm)

theorem load_orders_nodes_ne (g : Graph) (rows : List Row) (k : NodeKey)
    (h : k.label ≠ "Order") : (load_orders g rows).nodes k = g.nodes k := by
  rw [load_orders_nodes, lastWith_false]
  · rfl
  · intro r _
    exact decide_eq_false (fun hh => h (congrArg NodeKey.label hh).symm)

theorem load_products_edges_ne (g : Graph) (rows : List Row) (k : EdgeKey)
    (h : k.rel ≠ "IN_CATEGORY") : (load_products g rows).edges k = g.edges k := by
  rw [load_products_edges, lastWith_false]
  · rfl
  · intro r _
    rw [decide_eq_false (fun hh : (⟨"IN_CATEGORY", ⟨"Product", rowGet r "id"⟩,
        ⟨"Category", rowGet r "category_id"⟩⟩ : EdgeKey) = k => h (congrArg EdgeKey.rel hh).symm)]
    rfl

theorem load_orders_edges_ne (g : Graph) (rows : List Row) (k : EdgeKey)
    (h : k.rel ≠ "PLACED") : (load_orders g rows).edges k = g.edges k := by
  rw [load_orders_edges, lastWith_false]
  · rfl
  · intro r _
    rw [decide_eq_false (fun hh : (⟨"PLACED", ⟨"Customer", rowGet r "customer_id"⟩,
        ⟨"Order", rowGet r "id"⟩⟩ : EdgeKey) = k => h (congrArg EdgeKey.rel hh).symm)]
    rfl

theorem load_order_items_edges_ne (g : Graph) (rows : List Row) (k : EdgeKey)
    (h : k.rel ≠ "CONTAINS") : (load_order_items g rows).edges k = g.edges k := by
  rw [load_order_items_edges, lastWith_false]
  · rfl
  · intro r _
    rw [decide_eq_false (fun hh : (⟨"CONTAINS", ⟨"Order", rowGet r "order_id"⟩,
        ⟨"Product", rowGet r "product_id"⟩⟩ : EdgeKey) = k => h (congrArg EdgeKey.rel hh).symm)]
    rfl

theorem load_event_rel_edges_ne (rel : String) (g : Graph) (rows : List Row) (k : EdgeKey)
    (h : k.rel ≠ rel) : (load_event_rel rel g rows).edges k = g.edges k := by
  rw [load_event_rel_edges, lastWith_false]
  · rfl
  · intro r _
    rw [decide_eq_false (fun hh : (⟨rel, ⟨"Customer", rowGet r "customer_id"⟩,
        ⟨"Product", rowGet r "product_id"⟩⟩ : EdgeKey) = k => h (congrArg EdgeKey.rel hh).symm)]
    rfl

theorem load_events_nodes (g : Graph) (events : List Row) :
    (load_events g events).nodes = g.nodes := by
  unfold load_events
  rw [load_event_rel_nodes, load_event_rel_nodes, load_event_rel_nodes]

/-! ## Whole-load characterizations: nodes -/

theorem load_graph_nodes_cat (t : SrcTables) (g : Graph) (v : Val) :
    (load_graph t g).nodes ⟨"Category", v⟩ =
      charUpd (g.nodes ⟨"Category", v⟩) (fun r => [("name", rowGet r "name")])
        (lastWith t.categories (fun r => decide (rowGet r "id" = v))) := by
  have h4 : (⟨"Category", v⟩ : NodeKey).label ≠ "Order" := (by decide : ¬ (("Category" : String) = "Order"))
  have h3 : (⟨"Category", v⟩ : NodeKey).label ≠ "Customer" := (by decide : ¬ (("Category" : String) = "Customer"))
  have h2 : (⟨"Category", v⟩ : NodeKey).label ≠ "Product" := (by decide : ¬ (("Category" : String) = "Product"))
  have hpred : lastWith t.categories
      (fun r => decide ((⟨"Category", rowGet r "id"⟩ : NodeKey) = ⟨"Category", v⟩)) =
      lastWith t.categories (fun r => decide (rowGet r "id" = v)) :=
    lastWith_congr _ _ _ (fun r _ => decide_eq_decide.mpr (by simp))
  unfold load_graph
  rw [load_events_nodes, load_order_items_nodes,
    load_orders_nodes_ne _ _ _ h4, load_customers_nodes_ne _ _ _ h3,
    load_products_nodes_ne _ _ _ h2, load_categories_nodes, hpred]

theorem load_graph_nodes_prod (t : SrcTables) (g : Graph) (v : Val) :
    (load_graph t g).nodes ⟨"Product", v⟩ =
      charUpd (g.nodes ⟨"Product", v⟩)
        (fun r => [("name", rowGet r "name"), ("price", toFloatVal (rowGet r "price"))])
        (lastWith t.products (fun r => decide (rowGet r "id" = v))) := by
  have h4 : (⟨"Product", v⟩ : NodeKey).label ≠ "Order" := (by decide : ¬ (("Product" : String) = "Order"))
  have h3 : (⟨"Product", v⟩ : NodeKey).label ≠ "Customer" := (by decide : ¬ (("Product" : String) = "Customer"))
  have h1 : (⟨"Product", v⟩ : NodeKey).label ≠ "Category" := (by decide : ¬ (("Product" : String) = "Category"))
  have hpred : lastWith t.products
      (fun r => decide ((⟨"Product", rowGet r "id"⟩ : NodeKey) = ⟨"Product", v⟩)) =
      lastWith t.products (fun r => decide (rowGet r "id" = v)) :=
    lastWith_congr _ _ _ (fun r _ => decide_eq_decide.mpr (by simp))
  unfold load_graph
  rw [load_events_nodes, load_order_items_nodes,
    load_orders_nodes_ne _ _ _ h4, load_customers_nodes_ne _ _ _ h3,
    load_products_nodes, load_categories_nodes_ne _ _ _ h1, hpred]

theorem load_graph_nodes_cust (t : SrcTables) (g : Graph) (v : Val) :
    (load_graph t g).nodes ⟨"Customer", v⟩ =
      charUpd (g.nodes ⟨"Customer", v⟩)
        (fun r => [("name", rowGet r "name"), ("join_date", guardDate (rowGet r "join_date"))])
        (lastWith t.customers (fun r => decide (rowGet r "id" = v))) := by
  have h4 : (⟨"Customer", v⟩ : NodeKey).label ≠ "Order" := (by decide : ¬ (("Customer" : String) = "Order"))
  have h2 : (⟨"Customer", v⟩ : NodeKey).label ≠ "Product" := (by decide : ¬ (("Customer" : String) = "Product"))
  have h1 : (⟨"Customer", v⟩ : NodeKey).label ≠ "Category" := (by decide : ¬ (("Customer" : String) = "Category"))
  have hpred : lastWith t.customers
      (fun r => decide ((⟨"Customer", rowGet r "id"⟩ : NodeKey) = ⟨"Customer", v⟩)) =
      lastWith t.customers (fun r => decide (rowGet r "id" = v)) :=
    lastWith_congr _ _ _ (fun r _ => decide_eq_decide.mpr (by simp))
  unfold load_graph
  rw [load_events_nodes, load_order_items_nodes,
    load_orders_nodes_ne _ _ _ h4, load_customers_nodes,
    load_products_nodes_ne _ _ _ h2, load_categories_nodes_ne _ _ _ h1, hpred]

theorem load_graph_nodes_ord (t : SrcTables) (g : Graph) (v : Val) :
    (load_graph t g).nodes ⟨"Order", v⟩ =
      charUpd (g.nodes ⟨"Order", v⟩) (fun r => [("ts", guardDT (rowGet r "ts"))])
        (lastWith t.orders (fun r => decide (rowGet r "id" = v))) := by
  have h3 : (⟨"Order", v⟩ : NodeKey).label ≠ "Customer" := (by decide : ¬ (("Order" : String) = "Customer"))
  have h2 : (⟨"Order", v⟩ : NodeKey).label ≠ "Product" := (by decide : ¬ (("Order" : String) = "Product"))
  have h1 : (⟨"Order", v⟩ : NodeKey).label ≠ "Category" := (by decide : ¬ (("Order" : String) = "Category"))
  have hpred : lastWith t.orders
      (fun r => decide ((⟨"Order", rowGet r "id"⟩ : NodeKey) = ⟨"Order", v⟩)) =
      lastWith t.orders (fun r => decide (rowGet r "id" = v)) :=
    lastWith_congr _ _ _ (fun r _ => decide_eq_decide.mpr (by simp))
  unfold load_graph
  rw [load_events_nodes, load_order_items_nodes, load_orders_nodes,
    load_customers_nodes_ne _ _ _ h3,
    load_products_nodes_ne _ _ _ h2, load_categories_nodes_ne _ _ _ h1, hpred]

theorem load_graph_nodes_other (t : SrcTables) (g : Graph) (k : NodeKey)
    (h1 : k.label ≠ "Category") (h2 : k.label ≠ "Product")
    (h3 : k.label ≠ "Customer") (h4 : k.label ≠ "Order") :
    (load_graph t g).nodes k = g.nodes k := by
  unfold load_graph
  rw [load_events_nodes, load_order_items_nodes,
    load_orders_nodes_ne _ _ _ h4, load_customers_nodes_ne _ _ _ h3,
    load_products_nodes_ne _ _ _ h2, load_categories_nodes_ne _ _ _ h1]

/-! ## Node-existence at the stage each edge write runs -/

theorem exists_category_stage (t : SrcTables) (g : Graph) (v : Val) :
    ((load_categories g t.categories).nodes ⟨"Category", v⟩).isSome = catExists t g v := by
  have hpred : (fun r : Row =>
      decide ((⟨"Category", rowGet r "id"⟩ : NodeKey) = ⟨"Category", v⟩)) =
      (fun r : Row => decide (rowGet r "id" = v)) :=
    funext fun r => decide_eq_decide.mpr (by simp)
  rw [load_categories_nodes, charUpd_isSome, lastWith_isSome_any, hpred]
  rfl

theorem exists_customer_stage (t : SrcTables) (g : Graph) (v : Val) :
    ((load_customers (load_products (load_categories g t.categories) t.products)
        t.customers).nodes ⟨"Customer", v⟩).isSome = custExists t g v := by
  have h2 : (⟨"Customer", v⟩ : NodeKey).label ≠ "Product" := (by decide : ¬ (("Customer" : String) = "Product"))
  have h1 : (⟨"Customer", v⟩ : NodeKey).label ≠ "Category" := (by decide : ¬ (("Customer" : String) = "Category"))
  have hpred : (fun r : Row =>
      decide ((⟨"Customer", rowGet r "id"⟩ : NodeKey) = ⟨"Customer", v⟩)) =
      (fun r : Row => decide (rowGet r "id" = v)) :=
    funext fun r => decide_eq_decide.mpr (by simp)
  rw [load_customers_nodes, charUpd_isSome, lastWith_isSome_any, hpred,
    load_products_nodes_ne _ _ _ h2, load_categories_nodes_ne _ _ _ h1]
  rfl

theorem exists_customer_stage4 (t : SrcTables) (g : Graph) (v : Val) :
    ((load_orders (load_customers (load_products (load_categories g t.categories) t.products)
        t.customers) t.orders).nodes ⟨"Customer", v⟩).isSome = custExists t g v := by
  have h4 : (⟨"Customer", v⟩ : NodeKey).label ≠ "Order" := (by decide : ¬ (("Customer" : String) = "Order"))
  rw [load_orders_nodes_ne _ _ _ h4]
  exact exists_customer_stage t g v

theorem exists_order_stage (t : SrcTables) (g : Graph) (v : Val) :
    ((load_orders (load_customers (load_products (load_categories g t.categories) t.products)
        t.customers) t.orders).nodes ⟨"Order", v⟩).isSome = ordExists t g v := by
  have h3 : (⟨"Order", v⟩ : NodeKey).label ≠ "Customer" := (by decide : ¬ (("Order" : String) = "Customer"))
  have h2 : (⟨"Order", v⟩ : NodeKey).label ≠ "Product" := (by decide : ¬ (("Order" : String) = "Product"))
  have h1 : (⟨"Order", v⟩ : NodeKey).label ≠ "Category" := (by decide : ¬ (("Order" : String) = "Category"))
  have hpred : (fun r : Row =>
      decide ((⟨"Order", rowGet r "id"⟩ : NodeKey) = ⟨"Order", v⟩)) =
      (fun r : Row => decide (rowGet r "id" = v)) :=
    funext fun r => decide_eq_decide.mpr (by simp)
  rw [load_orders_nodes, charUpd_isSome, lastWith_isSome_any, hpred,
    load_customers_nodes_ne _ _ _ h3, load_products_nodes_ne _ _ _ h2,
    load_categories_nodes_ne _ _ _ h1]
  rfl

theorem exists_product_stage (t : SrcTables) (g : Graph) (v : Val) :
    ((load_orders (load_customers (load_products (load_categories g t.categories) t.products)
        t.customers) t.orders).nodes ⟨"Product", v⟩).isSome = prodExists t g v := by
  have h4 : (⟨"Product", v⟩ : NodeKey).label ≠ "Order" := (by decide : ¬ (("Product" : String) = "Order"))
  have h3 : (⟨"Product", v⟩ : NodeKey).label ≠ "Customer" := (by decide : ¬ (("Product" : String) = "Customer"))
  have h1 : (⟨"Product", v⟩ : NodeKey).label ≠ "Category" := (by decide : ¬ (("Product" : String) = "Category"))
  have hpred : (fun r : Row =>
      decide ((⟨"Product", rowGet r "id"⟩ : NodeKey) = ⟨"Product", v⟩)) =
      (fun r : Row => decide (rowGet r "id" = v)) :=
    funext fun r => decide_eq_decide.mpr (by simp)
  rw [load_orders_nodes_ne _ _ _ h4, load_customers_nodes_ne _ _ _ h3,
    load_products_nodes, charUpd_isSome, lastWith_isSome_any, hpred,
    load_categories_nodes_ne _ _ _ h1]
  rfl

/-! ## Whole-load characterizations: edges -/

theorem load_graph_edges_incat (t : SrcTables) (g : Graph) (k : EdgeKey)
    (h : k.rel = "IN_CATEGORY") :
    (load_graph t g).edges k =
      charUpd (g.edges k) (fun _ => [])
        (lastWith t.products (fun r =>
          decide ((⟨"IN_CATEGORY", ⟨"Product", rowGet r "id"⟩,
            ⟨"Category", rowGet r "category_id"⟩⟩ : EdgeKey) = k) &&
          catExists t g (rowGet r "category_id"))) := by
  have hne1 : k.rel ≠ "ADDED_TO_CART" := by rw [h]; decide
  have hne2 : k.rel ≠ "CLICKED" := by rw [h]; decide
  have hne3 : k.rel ≠ "VIEWED" := by rw [h]; decide
  have hne4 : k.rel ≠ "CONTAINS" := by rw [h]; decide
  have hne5 : k.rel ≠ "PLACED" := by rw [h]; decide
  have hpred : (fun r : Row =>
      decide ((⟨"IN_CATEGORY", ⟨"Product", rowGet r "id"⟩,
        ⟨"Category", rowGet r "category_id"⟩⟩ : EdgeKey) = k) &&
      ((load_categories g t.categories).nodes ⟨"Category", rowGet r "category_id"⟩).isSome) =
      (fun r : Row =>
      decide ((⟨"IN_CATEGORY", ⟨"Product", rowGet r "id"⟩,
        ⟨"Category", rowGet r "category_id"⟩⟩ : EdgeKey) = k) &&
      catExists t g (rowGet r "category_id")) :=
    funext fun r => by rw [exists_category_stage]
  unfold load_graph load_events
  rw [load_event_rel_edges_ne _ _ _ _ hne1, load_event_rel_edges_ne _ _ _ _ hne2,
    load_event_rel_edges_ne _ _ _ _ hne3, load_order_items_edges_ne _ _ _ hne4,
    load_orders_edges_ne _ _ _ hne5, load_customers_edges, load_products_edges,
    hpred, load_categories_edges]

theorem load_graph_edges_placed (t : SrcTables) (g : Graph) (k : EdgeKey)
    (h : k.rel = "PLACED") :
    (load_graph t g).edges k =
      charUpd (g.edges k) (fun _ => [])
        (lastWith t.orders (fun r =>
          decide ((⟨"PLACED", ⟨"Customer", rowGet r "customer_id"⟩,
            ⟨"Order", rowGet r "id"⟩⟩ : EdgeKey) = k) &&
          custExists t g (rowGet r "customer_id"))) := by
  have hne1 : k.rel ≠ "ADDED_TO_CART" := by rw [h]; decide
  have hne2 : k.rel ≠ "CLICKED" := by rw [h]; decide
  have hne3 : k.rel ≠ "VIEWED" := by rw [h]; decide
  have hne4 : k.rel ≠ "CONTAINS" := by rw [h]; decide
  have hne6 : k.rel ≠ "IN_CATEGORY" := by rw [h]; decide
  have hpred : (fun r : Row =>
      decide ((⟨"PLACED", ⟨"Customer", rowGet r "customer_id"⟩,
        ⟨"Order", rowGet r "id"⟩⟩ : EdgeKey) = k) &&
      ((load_customers (load_products (load_categories g t.categories) t.products)
        t.customers).nodes ⟨"Customer", rowGet r "customer_id"⟩).isSome) =
      (fun r : Row =>
      decide ((⟨"PLACED", ⟨"Customer", rowGet r "customer_id"⟩,
        ⟨"Order", rowGet r "id"⟩⟩ : EdgeKey) = k) &&
      custExists t g (rowGet r "customer_id")) :=
    funext fun r => by rw [exists_customer_stage]
  unfold load_graph load_events
  rw [load_event_rel_edges_ne _ _ _ _ hne1, load_event_rel_edges_ne _ _ _ _ hne2,
    load_event_rel_edges_ne _ _ _ _ hne3, load_order_items_edges_ne _ _ _ hne4,
    load_orders_edges, hpred, load_customers_edges, load_products_edges_ne _ _ _ hne6,
    load_categories_edges]

theorem load_graph_edges_contains (t : SrcTables) (g : Graph) (k : EdgeKey)
    (h : k.rel = "CONTAINS") :
    (load_graph t g).edges k =
      charUpd (g.edges k) (fun r => [("quantity", toIntVal (rowGet r "quantity"))])
        (lastWith t.order_items (fun r =>
          decide ((⟨"CONTAINS", ⟨"Order", rowGet r "order_id"⟩,
            ⟨"Product", rowGet r "product_id"⟩⟩ : EdgeKey) = k) &&
          (ordExists t g (rowGet r "order_id") &&
           prodExists t g (rowGet r "product_id")))) := by
  have hne1 : k.rel ≠ "ADDED_TO_CART" := by rw [h]; decide
  have hne2 : k.rel ≠ "CLICKED" := by rw [h]; decide
  have hne3 : k.rel ≠ "VIEWED" := by rw [h]; decide
  have hne5 : k.rel ≠ "PLACED" := by rw [h]; decide
  have hne6 : k.rel ≠ "IN_CATEGORY" := by rw [h]; decide
  have hpred : (fun r : Row =>
      decide ((⟨"CONTAINS", ⟨"Order", rowGet r "order_id"⟩,
        ⟨"Product", rowGet r "product_id"⟩⟩ : EdgeKey) = k) &&
      (((load_orders (load_customers (load_products (load_categories g t.categories)
          t.products) t.customers) t.orders).nodes ⟨"Order", rowGet r "order_id"⟩).isSome &&
       ((load_orders (load_customers (load_products (load_categories g t.categories)
          t.products) t.customers) t.orders).nodes ⟨"Product", rowGet r "product_id"⟩).isSome)) =
      (fun r : Row =>
      decide ((⟨"CONTAINS", ⟨"Order", rowGet r "order_id"⟩,
        ⟨"Product", rowGet r "product_id"⟩⟩ : EdgeKey) = k) &&
      (ordExists t g (rowGet r "order_id") &&
       prodExists t g (rowGet r "product_id"))) :=
    funext fun r => by rw [exists_order_stage, exists_product_stage]
  unfold load_graph load_events
  rw [load_event_rel_edges_ne _ _ _ _ hne1, load_event_rel_edges_ne _ _ _ _ hne2,
    load_event_rel_edges_ne _ _ _ _ hne3, load_order_items_edges, hpred,
    load_orders_edges_ne _ _ _ hne5, load_customers_edges,
    load_products_edges_ne _ _ _ hne6, load_categories_edges]

theorem load_graph_edges_viewed (t : SrcTables) (g : Graph) (k : EdgeKey)
    (h : k.rel = "VIEWED") :
    (load_graph t g).edges k =
      charUpd (g.edges k) (fun r => [("ts", guardDT (rowGet r "ts"))])
        (lastWith (byType t.events "view") (fun r =>
          decide ((⟨"VIEWED", ⟨"Customer", rowGet r "customer_id"⟩,
            ⟨"Product", rowGet r "product_id"⟩⟩ : EdgeKey) = k) &&
          (custExists t g (rowGet r "customer_id") &&
           prodExists t g (rowGet r "product_id")))) := by
  have hne1 : k.rel ≠ "ADDED_TO_CART" := by rw [h]; decide
  have hne2 : k.rel ≠ "CLICKED" := by rw [h]; decide
  have hne4 : k.rel ≠ "CONTAINS" := by rw [h]; decide
  have hne5 : k.rel ≠ "PLACED" := by rw [h]; decide
  have hne6 : k.rel ≠ "IN_CATEGORY" := by rw [h]; decide
  have hpred : (fun r : Row =>
      decide ((⟨"VIEWED", ⟨"Customer", rowGet r "customer_id"⟩,
        ⟨"Product", rowGet r "product_id"⟩⟩ : EdgeKey) = k) &&
      (((load_order_items (load_orders (load_customers (load_products
          (load_categories g t.categories) t.products) t.customers) t.orders)
          t.order_items).nodes ⟨"Customer", rowGet r "customer_id"⟩).isSome &&
       ((load_order_items (load_orders (load_customers (load_products
          (load_categories g t.categories) t.products) t.customers) t.orders)
          t.order_items).nodes ⟨"Product", rowGet r "product_id"⟩).isSome)) =
      (fun r : Row =>
      decide ((⟨"VIEWED", ⟨"Customer", rowGet r "customer_id"⟩,
        ⟨"Product", rowGet r "product_id"⟩⟩ : EdgeKey) = k) &&
      (custExists t g (rowGet r "customer_id") &&
       prodExists t g (rowGet r "product_id"))) :=
    funext fun r => by
      rw [load_order_items_nodes, exists_customer_stage4, exists_product_stage]
  unfold load_graph load_events
  rw [load_event_rel_edges_ne _ _ _ _ hne1, load_event_rel_edges_ne _ _ _ _ hne2,
    load_event_rel_edges, hpred, load_order_items_edges_ne _ _ _ hne4,
    load_orders_edges_ne _ _ _ hne5, load_customers_edges,
    load_products_edges_ne _ _ _ hne6, load_categories_edges]

theorem load_graph_edges_clicked (t : SrcTables) (g : Graph) (k : EdgeKey)
    (h : k.rel = "CLICKED") :
    (load_graph t g).edges k =
      charUpd (g.edges k) (fun r => [("ts", guardDT (rowGet r "ts"))])
        (lastWith (byType t.events "click") (fun r =>
          decide ((⟨"CLICKED", ⟨"Customer", rowGet r "customer_id"⟩,
            ⟨"Product", rowGet r "product_id"⟩⟩ : EdgeKey) = k) &&
          (custExists t g (rowGet r "customer_id") &&
           prodExists t g (rowGet r "product_id")))) := by
  have hne1 : k.rel ≠ "ADDED_TO_CART" := by rw [h]; decide
  have hne3 : k.rel ≠ "VIEWED" := by rw [h]; decide
  have hne4 : k.rel ≠ "CONTAINS" := by rw [h]; decide
  have hne5 : k.rel ≠ "PLACED" := by rw [h]; decide
  have hne6 : k.rel ≠ "IN_CATEGORY" := by rw [h]; decide
  have hpred : (fun r : Row =>
      decide ((⟨"CLICKED", ⟨"Customer", rowGet r "customer_id"⟩,
        ⟨"Product", rowGet r "product_id"⟩⟩ : EdgeKey) = k) &&
      (((load_event_rel "VIEWED" (load_order_items (load_orders (load_customers
          (load_products (load_categories g t.categories) t.products) t.customers)
          t.orders) t.order_items) (byType t.events "view")).nodes
          ⟨"Customer", rowGet r "customer_id"⟩).isSome &&
       ((load_event_rel "VIEWED" (load_order_items (load_orders (load_customers
          (load_products (load_categories g t.categories) t.products) t.customers)
          t.orders) t.order_items) (byType t.events "view")).nodes
          ⟨"Product", rowGet r "product_id"⟩).isSome)) =
      (fun r : Row =>
      decide ((⟨"CLICKED", ⟨"Customer", rowGet r "customer_id"⟩,
        ⟨"Product", rowGet r "product_id"⟩⟩ : EdgeKey) = k) &&
      (custExists t g (rowGet r "customer_id") &&
       prodExists t g (rowGet r "product_id"))) :=
    funext fun r => by
      rw [load_event_rel_nodes, load_order_items_nodes,
        exists_customer_stage4, exists_product_stage]
  unfold load_graph load_events
  rw [load_event_rel_edges_ne _ _ _ _ hne1, load_event_rel_edges, hpred,
    load_event_rel_edges_ne _ _ _ _ hne3, load_order_items_edges_ne _ _ _ hne4,
    load_orders_edges_ne _ _ _ hne5, load_customers_edges,
    load_products_edges_ne _ _ _ hne6, load_categories_edges]

theorem load_graph_edges_added (t : SrcTables) (g : Graph) (k : EdgeKey)
    (h : k.rel = "ADDED_TO_CART") :
    (load_graph t g).edges k =
      charUpd (g.edges k) (fun r => [("ts", guardDT (rowGet r "ts"))])
        (lastWith (byType t.events "add_to_cart") (fun r =>
          decide ((⟨"ADDED_TO_CART", ⟨"Customer", rowGet r "customer_id"⟩,
            ⟨"Product", rowGet r "product_id"⟩⟩ : EdgeKey) = k) &&
          (custExists t g (rowGet r "customer_id") &&
           prodExists t g (rowGet r "product_id")))) := by
  have hne2 : k.rel ≠ "CLICKED" := by rw [h]; decide
  have hne3 : k.rel ≠ "VIEWED" := by rw [h]; decide
  have hne4 : k.rel ≠ "CONTAINS" := by rw [h]; decide
  have hne5 : k.rel ≠ "PLACED" := by rw [h]; decide
  have hne6 : k.rel ≠ "IN_CATEGORY" := by rw [h]; decide
  have hpred : (fun r : Row =>
      decide ((⟨"ADDED_TO_CART", ⟨"Customer", rowGet r "customer_id"⟩,
        ⟨"Product", rowGet r "product_id"⟩⟩ : EdgeKey) = k) &&
      (((load_event_rel "CLICKED" (load_event_rel "VIEWED" (load_order_items
          (load_orders (load_customers (load_products (load_categories g t.categories)
          t.products) t.customers) t.orders) t.order_items) (byType t.events "view"))
          (byType t.events "click")).nodes ⟨"Customer", rowGet r "customer_id"⟩).isSome &&
       ((load_event_rel "CLICKED" (load_event_rel "VIEWED" (load_order_items
          (load_orders (load_customers (load_products (load_categories g t.categories)
          t.products) t.customers) t.orders) t.order_items) (byType t.events "view"))
          (byType t.events "click")).nodes ⟨"Product", rowGet r "product_id"⟩).isSome)) =
      (fun r : Row =>
      decide ((⟨"ADDED_TO_CART", ⟨"Customer", rowGet r "customer_id"⟩,
        ⟨"Product", rowGet r "product_id"⟩⟩ : EdgeKey) = k) &&
      (custExists t g (rowGet r "customer_id") &&
       prodExists t g (rowGet r "product_id"))) :=
    funext fun r => by
      rw [load_event_rel_nodes, load_event_rel_nodes, load_order_items_nodes,
        exists_customer_stage4, exists_product_stage]
  unfold load_graph load_events
  rw [load_event_rel_edges, hpred, load_event_rel_edges_ne _ _ _ _ hne2,
    load_event_rel_edges_ne _ _ _ _ hne3, load_order_items_edges_ne _ _ _ hne4,
    load_orders_edges_ne _ _ _ hne5, load_customers_edges,
    load_products_edges_ne _ _ _ hne6, load_categories_edges]

theorem load_graph_edges_other (t : SrcTables) (g : Graph) (k : EdgeKey)
    (h1 : k.rel ≠ "IN_CATEGORY") (h2 : k.rel ≠ "PLACED") (h3 : k.rel ≠ "CONTAINS")
    (h4 : k.rel ≠ "VIEWED") (h5 : k.rel ≠ "CLICKED") (h6 : k.rel ≠ "ADDED_TO_CART") :
    (load_graph t g).edges k = g.edges k := by
  unfold load_graph load_events
  rw [load_event_rel_edges_ne _ _ _ _ h6, load_event_rel_edges_ne _ _ _ _ h5,
    load_event_rel_edges_ne _ _ _ _ h4, load_order_items_edges_ne _ _ _ h3,
    load_orders_edges_ne _ _ _ h2, load_customers_edges,
    load_products_edges_ne _ _ _ h1, load_categories_edges]

/-! ## Existence stability under a load -/

theorem catExists_load (t : SrcTables) (g : Graph) (v : Val) :
    catExists t (load_graph t g) v = catExists t g v := by
  unfold catExists
  rw [load_graph_nodes_cat, charUpd_isSome, lastWith_isSome_any,
    ← Bool.or_assoc, Bool.or_self]

theorem custExists_load (t : SrcTables) (g : Graph) (v : Val) :
    custExists t (load_graph t g) v = custExists t g v := by
  unfold custExists
  rw [load_graph_nodes_cust, charUpd_isSome, lastWith_isSome_any,
    ← Bool.or_assoc, Bool.or_self]

theorem prodExists_load (t : SrcTables) (g : Graph) (v : Val) :
    prodExists t (load_graph t g) v = prodExists t g v := by
  unfold prodExists
  rw [load_graph_nodes_prod, charUpd_isSome, lastWith_isSome_any,
    ← Bool.or_assoc, Bool.or_self]

theorem ordExists_load (t : SrcTables) (g : Graph) (v : Val) :
    ordExists t (load_graph t g) v = ordExists t g v := by
  unfold ordExists
  rw [load_graph_nodes_ord, charUpd_isSome, lastWith_isSome_any,
    ← Bool.or_assoc, Bool.or_self]

/-- C1: replaying the full graph load against the same source snapshot is the
identity on the already-loaded graph — for every table mapping and every
starting graph, loading twice equals loading once: node upserts are keyed by
the source primary key and edge upserts by (kind, endpoints), so the replay
refreshes each node and edge with the same properties instead of duplicating
anything (same nodes, same edges, same property maps). -/
theorem load_graph_idempotent (t : SrcTables) (g : Graph) :
    load_graph t (load_graph t g) = load_graph t g := by
  apply Graph.ext2
  · intro k
    rcases k with ⟨l, v⟩
    by_cases h1 : l = "Category"
    · subst h1
      rw [load_graph_nodes_cat, load_graph_nodes_cat]
      cases hl : lastWith t.categories (fun r => decide (rowGet r "id" = v)) with
      | none => rw [charUpd_none]
      | some r =>
        simp only [charUpd_some, Option.getD_some]
        exact congrArg some (setProps_cancel _ _ _ rfl)
    · by_cases h2 : l = "Product"
      · subst h2
        rw [load_graph_nodes_prod, load_graph_nodes_prod]
        cases hl : lastWith t.products (fun r => decide (rowGet r "id" = v)) with
        | none => rw [charUpd_none]
        | some r =>
          simp only [charUpd_some, Option.getD_some]
          exact congrArg some (setProps_cancel _ _ _ rfl)
      · by_cases h3 : l = "Customer"
        · subst h3
          rw [load_graph_nodes_cust, load_graph_nodes_cust]
          cases hl : lastWith t.customers (fun r => decide (rowGet r "id" = v)) with
          | none => rw [charUpd_none]
          | some r =>
            simp only [charUpd_some, Option.getD_some]
            exact congrArg some (setProps_cancel _ _ _ rfl)
        · by_cases h4 : l = "Order"
          · subst h4
            rw [load_graph_nodes_ord, load_graph_nodes_ord]
            cases hl : lastWith t.orders (fun r => decide (rowGet r "id" = v)) with
            | none => rw [charUpd_none]
            | some r =>
              simp only [charUpd_some, Option.getD_some]
              exact congrArg some (setProps_cancel _ _ _ rfl)
          · rw [load_graph_nodes_other t _ ⟨l, v⟩ h1 h2 h3 h4,
              load_graph_nodes_other t g ⟨l, v⟩ h1 h2 h3 h4]
  · intro k
    rcases k with ⟨rel, s, d⟩
    by_cases h1 : rel = "IN_CATEGORY"
    · subst h1
      rw [load_graph_edges_incat _ _ _ rfl, load_graph_edges_incat _ _ _ rfl]
      simp only [catExists_load]
      cases hl : lastWith t.products (fun r =>
          decide ((⟨"IN_CATEGORY", ⟨"Product", rowGet r "id"⟩,
            ⟨"Category", rowGet r "category_id"⟩⟩ : EdgeKey) = ⟨"IN_CATEGORY", s, d⟩) &&
          catExists t g (rowGet r "category_id")) with
      | none => rw [charUpd_none]
      | some r =>
        simp only [charUpd_some, Option.getD_some]
        exact congrArg some (setProps_cancel _ _ _ rfl)
    · by_cases h2 : rel = "PLACED"
      · subst h2
        rw [load_graph_edges_placed _ _ _ rfl, load_graph_edges_placed _ _ _ rfl]
        simp only [custExists_load]
        cases hl : lastWith t.orders (fun r =>
            decide ((⟨"PLACED", ⟨"Customer", rowGet r "customer_id"⟩,
              ⟨"Order", rowGet r "id"⟩⟩ : EdgeKey) = ⟨"PLACED", s, d⟩) &&
            custExists t g (rowGet r "customer_id")) with
        | none => rw [charUpd_none]
        | some r =>
          simp only [charUpd_some, Option.getD_some]
          exact congrArg some (setProps_cancel _ _ _ rfl)
      · by_cases h3 : rel = "CONTAINS"
        · subst h3
          rw [load_graph_edges_contains _ _ _ rfl, load_graph_edges_contains _ _ _ rfl]
          simp only [ordExists_load, prodExists_load]
          cases hl : lastWith t.order_items (fun r =>
              decide ((⟨"CONTAINS", ⟨"Order", rowGet r "order_id"⟩,
                ⟨"Product", rowGet r "product_id"⟩⟩ : EdgeKey) = ⟨"CONTAINS", s, d⟩) &&
              (ordExists t g (rowGet r "order_id") &&
               prodExists t g (rowGet r "product_id"))) with
          | none => rw [charUpd_none]
          | some r =>
            simp only [charUpd_some, Option.getD_some]
            exact congrArg some (setProps_cancel _ _ _ rfl)
        · by_cases h4 : rel = "VIEWED"
          · subst h4
            rw [load_graph_edges_viewed _ _ _ rfl, load_graph_edges_viewed _ _ _ rfl]
            simp only [custExists_load, prodExists_load]
            cases hl : lastWith (byType t.events "view") (fun r =>
                decide ((⟨"VIEWED", ⟨"Customer", rowGet r "customer_id"⟩,
                  ⟨"Product", rowGet r "product_id"⟩⟩ : EdgeKey) = ⟨"VIEWED", s, d⟩) &&
                (custExists t g (rowGet r "customer_id") &&
                 prodExists t g (rowGet r "product_id"))) with
            | none => rw [charUpd_none]
            | some r =>
              simp only [charUpd_some, Option.getD_some]
              exact congrArg some (setProps_cancel _ _ _ rfl)
          · by_cases h5 : rel = "CLICKED"
            · subst h5
              rw [load_graph_edges_clicked _ _ _ rfl, load_graph_edges_clicked _ _ _ rfl]
              simp only [custExists_load, prodExists_load]
              cases hl : lastWith (byType t.events "click") (fun r =>
                  decide ((⟨"CLICKED", ⟨"Customer", rowGet r "customer_id"⟩,
                    ⟨"Product", rowGet r "product_id"⟩⟩ : EdgeKey) = ⟨"CLICKED", s, d⟩) &&
                  (custExists t g (rowGet r "customer_id") &&
                   prodExists t g (rowGet r "product_id"))) with
              | none => rw [charUpd_none]
              | some r =>
                simp only [charUpd_some, Option.getD_some]
                exact congrArg some (setProps_cancel _ _ _ rfl)
            · by_cases h6 : rel = "ADDED_TO_CART"
              · subst h6
                rw [load_graph_edges_added _ _ _ rfl, load_graph_edges_added _ _ _ rfl]
                simp only [custExists_load, prodExists_load]
                cases hl : lastWith (byType t.events "add_to_cart") (fun r =>
                    decide ((⟨"ADDED_TO_CART", ⟨"Customer", rowGet r "customer_id"⟩,
                      ⟨"Product", rowGet r "product_id"⟩⟩ : EdgeKey) = ⟨"ADDED_TO_CART", s, d⟩) &&
                    (custExists t g (rowGet r "customer_id") &&
                     prodExists t g (rowGet r "product_id"))) with
                | none => rw [charUpd_none]
                | some r =>
                  simp only [charUpd_some, Option.getD_some]
                  exact congrArg some (setProps_cancel _ _ _ rfl)
              · rw [load_graph_edges_other t _ ⟨rel, s, d⟩ h1 h2 h3 h4 h5 h6,
                  load_graph_edges_other t g ⟨rel, s, d⟩ h1 h2 h3 h4 h5 h6]

/-! ## Keyed lookup under a primary key (no duplicate keys) -/

theorem lastWith_unique {α : Type} [DecidableEq α] (f : Row → α) (rows : List Row)
    (hn : (rows.map f).Nodup) (r : Row) (hr : r ∈ rows) :
    lastWith rows (fun r2 => decide (f r2 = f r)) = some r := by
  induction rows with
  | nil => simp at hr
  | cons a rs ih =>
    rw [List.map_cons, List.nodup_cons] at hn
    by_cases ha : f a = f r
    · have hra : r = a := by
        rcases List.mem_cons.mp hr with h | h
        · exact h
        · exact absurd (ha ▸ List.mem_map_of_mem f h) hn.1
      subst hra
      unfold lastWith
      rw [List.filter_cons, if_pos (by simp)]
      have hnil : rs.filter (fun r2 => decide (f r2 = f r)) = [] := by
        rw [List.filter_eq_nil_iff]
        intro r2 hr2
        simp only [decide_eq_true_eq]
        intro hf2
        exact hn.1 (hf2 ▸ List.mem_map_of_mem f hr2)
      rw [hnil]
      rfl
    · have hr2 : r ∈ rs := by
        rcases List.mem_cons.mp hr with h | h
        · exact absurd (by rw [h]) ha
        · exact h
      unfold lastWith
      rw [List.filter_cons, if_neg (by simp [ha])]
      exact ih hn.2 hr2

/-- C2: a product record whose `category_id` matches no category in the input
still gets its `Product` node upserted with the correct `name` and coerced
`price`, while no `IN_CATEGORY` edge is created for it, and (the load being a
total function whose failed endpoint `MATCH` is a per-record no-op) no error
is raised.  Product ids are assumed pairwise distinct, which is the source
relation's primary-key invariant. -/
theorem product_without_category (t : SrcTables) (r : Row)
    (hmem : r ∈ t.products)
    (hnodup : (t.products.map (fun r2 => rowGet r2 "id")).Nodup)
    (hnocat : ∀ c ∈ t.categories, rowGet c "id" ≠ rowGet r "category_id") :
    ((load_graph t Graph.empty).nodes ⟨"Product", rowGet r "id"⟩).isSome = true ∧
    ((load_graph t Graph.empty).nodes ⟨"Product", rowGet r "id"⟩).getD emptyProps "name" =
      some (rowGet r "name") ∧
    ((load_graph t Graph.empty).nodes ⟨"Product", rowGet r "id"⟩).getD emptyProps "price" =
      some (toFloatVal (rowGet r "price")) ∧
    (load_graph t Graph.empty).edges ⟨"IN_CATEGORY", ⟨"Product", rowGet r "id"⟩,
      ⟨"Category", rowGet r "category_id"⟩⟩ = none := by
  have hlast : lastWith t.products (fun r2 => decide (rowGet r2 "id" = rowGet r "id")) = some r :=
    lastWith_unique (fun r2 => rowGet r2 "id") t.products hnodup r hmem
  have hnode := load_graph_nodes_prod t Graph.empty (rowGet r "id")
  rw [hlast, charUpd_some] at hnode
  refine ⟨?_, ?_, ?_, ?_⟩
  · rw [hnode]
    rfl
  · rw [hnode]
    rfl
  · rw [hnode]
    rfl
  · have hedge := load_graph_edges_incat t Graph.empty
      ⟨"IN_CATEGORY", ⟨"Product", rowGet r "id"⟩, ⟨"Category", rowGet r "category_id"⟩⟩ rfl
    rw [lastWith_false] at hedge
    · rw [hedge]
      rfl
    · intro r2 _
      by_cases he : (⟨"IN_CATEGORY", ⟨"Product", rowGet r2 "id"⟩,
          ⟨"Category", rowGet r2 "category_id"⟩⟩ : EdgeKey) =
          ⟨"IN_CATEGORY", ⟨"Product", rowGet r "id"⟩, ⟨"Category", rowGet r "category_id"⟩⟩
      · have hcid : rowGet r2 "category_id" = rowGet r "category_id" :=
          congrArg (fun k2 => EdgeKey.dst k2 |>.id) he
        have hcat : catExists t Graph.empty (rowGet r "category_id") = false := by
          unfold catExists
          have hany : t.categories.any
              (fun c => decide (rowGet c "id" = rowGet r "category_id")) = false := by
            rw [List.any_eq_false]
            intro c hc
            simp only [decide_eq_true_eq]
            exact hnocat c hc
          rw [hany]
          rfl
        rw [hcid, hcat, Bool.and_false]
      · rw [decide_eq_false he]
        rfl

/-- Witness for C2: a concrete snapshot with one product whose
`category_id` (7) matches no category (the only category has id 9): the
product node is created with its name and float price, and no `IN_CATEGORY`
edge exists for it. -/
theorem product_without_category_witness :
    ((load_graph
        { customers := [], categories := [[("id", Val.int 9), ("name", Val.str "toys")]],
          products := [[("id", Val.int 1), ("name", Val.str "widget"),
            ("price", Val.int 5), ("category_id", Val.int 7)]],
          orders := [], order_items := [], events := [] }
        Graph.empty).nodes ⟨"Product", Val.int 1⟩).isSome = true ∧
    ((load_graph
        { customers := [], categories := [[("id", Val.int 9), ("name", Val.str "toys")]],
          products := [[("id", Val.int 1), ("name", Val.str "widget"),
            ("price", Val.int 5), ("category_id", Val.int 7)]],
          orders := [], order_items := [], events := [] }
        Graph.empty).nodes ⟨"Product", Val.int 1⟩).getD emptyProps "name" =
      some (Val.str "widget") ∧
    ((load_graph
        { customers := [], categories := [[("id", Val.int 9), ("name", Val.str "toys")]],
          products := [[("id", Val.int 1), ("name", Val.str "widget"),
            ("price", Val.int 5), ("category_id", Val.int 7)]],
          orders := [], order_items := [], events := [] }
        Graph.empty).nodes ⟨"Product", Val.int 1⟩).getD emptyProps "price" =
      some (Val.float 5) ∧
    (load_graph
        { customers := [], categories := [[("id", Val.int 9), ("name", Val.str "toys")]],
          products := [[("id", Val.int 1), ("name", Val.str "widget"),
            ("price", Val.int 5), ("category_id", Val.int 7)]],
          orders := [], order_items := [], events := [] }
        Graph.empty).edges ⟨"IN_CATEGORY", ⟨"Product", Val.int 1⟩,
      ⟨"Category", Val.int 7⟩⟩ = none := by
  exact product_without_category
    { customers := [], categories := [[("id", Val.int 9), ("name", Val.str "toys")]],
      products := [[("id", Val.int 1), ("name", Val.str "widget"),
        ("price", Val.int 5), ("category_id", Val.int 7)]],
      orders := [], order_items := [], events := [] }
    [("id", Val.int 1), ("name", Val.str "widget"), ("price", Val.int 5), ("category_id", Val.int 7)]
    (by decide) (by decide) (by decide)

theorem lastWith_singleton (e : Row) (p : Row → Bool) :
    lastWith [e] p = if p e then some e else none := by
  unfold lastWith
  rw [List.filter_cons]
  by_cases h : p e = true
  · rw [if_pos h, if_pos h]
    rfl
  · rw [if_neg h, if_neg h]
    rfl

/-- C7: event routing is an exact three-way partition on `event_type`.  For a
snapshot whose events relation holds a single record `e` with an existing
customer and product: if its type is `view` the load produces exactly one
behavioral edge — a `VIEWED` edge carrying `ts` per the guarded normalization
rule — and no other behavioral edge; likewise `click` → `CLICKED` and
`add_to_cart` → `ADDED_TO_CART`; and for any other type (e.g. `purchase`)
the record produces no behavioral edge of any kind and raises no error (the
unmatched record falls in no bucket). -/
theorem event_routing (t : SrcTables) (e : Row)
    (hev : t.events = [e])
    (hcust : ∃ c ∈ t.customers, rowGet c "id" = rowGet e "customer_id")
    (hprod : ∃ p2 ∈ t.products, rowGet p2 "id" = rowGet e "product_id") :
    (rowGet e "event_type" = Val.str "view" →
      (load_graph t Graph.empty).edges ⟨"VIEWED", ⟨"Customer", rowGet e "customer_id"⟩,
        ⟨"Product", rowGet e "product_id"⟩⟩ =
        some (setProps emptyProps [("ts", guardDT (rowGet e "ts"))]) ∧
      ∀ k : EdgeKey, (k.rel = "VIEWED" ∨ k.rel = "CLICKED" ∨ k.rel = "ADDED_TO_CART") →
        k ≠ ⟨"VIEWED", ⟨"Customer", rowGet e "customer_id"⟩,
          ⟨"Product", rowGet e "product_id"⟩⟩ →
        (load_graph t Graph.empty).edges k = none) ∧
    (rowGet e "event_type" = Val.str "click" →
      (load_graph t Graph.empty).edges ⟨"CLICKED", ⟨"Customer", rowGet e "customer_id"⟩,
        ⟨"Product", rowGet e "product_id"⟩⟩ =
        some (setProps emptyProps [("ts", guardDT (rowGet e "ts"))]) ∧
      ∀ k : EdgeKey, (k.rel = "VIEWED" ∨ k.rel = "CLICKED" ∨ k.rel = "ADDED_TO_CART") →
        k ≠ ⟨"CLICKED", ⟨"Customer", rowGet e "customer_id"⟩,
          ⟨"Product", rowGet e "product_id"⟩⟩ →
        (load_graph t Graph.empty).edges k = none) ∧
    (rowGet e "event_type" = Val.str "add_to_cart" →
      (load_graph t Graph.empty).edges ⟨"ADDED_TO_CART", ⟨"Customer", rowGet e "customer_id"⟩,
        ⟨"Product", rowGet e "product_id"⟩⟩ =
        some (setProps emptyProps [("ts", guardDT (rowGet e "ts"))]) ∧
      ∀ k : EdgeKey, (k.rel = "VIEWED" ∨ k.rel = "CLICKED" ∨ k.rel = "ADDED_TO_CART") →
        k ≠ ⟨"ADDED_TO_CART", ⟨"Customer", rowGet e "customer_id"⟩,
          ⟨"Product", rowGet e "product_id"⟩⟩ →
        (load_graph t Graph.empty).edges k = none) ∧
    (rowGet e "event_type" ≠ Val.str "view" → rowGet e "event_type" ≠ Val.str "click" →
      rowGet e "event_type" ≠ Val.str "add_to_cart" →
      ∀ k : EdgeKey, (k.rel = "VIEWED" ∨ k.rel = "CLICKED" ∨ k.rel = "ADDED_TO_CART") →
        (load_graph t Graph.empty).edges k = none) := by
  have hce : custExists t Graph.empty (rowGet e "customer_id") = true := by
    unfold custExists
    obtain ⟨c, hc, hceq⟩ := hcust
    rw [List.any_eq_true.mpr ⟨c, hc, decide_eq_true hceq⟩]
    rfl
  have hpe : prodExists t Graph.empty (rowGet e "product_id") = true := by
    unfold prodExists
    obtain ⟨p2, hp, hpeq⟩ := hprod
    rw [List.any_eq_true.mpr ⟨p2, hp, decide_eq_true hpeq⟩]
    rfl
  refine ⟨?_, ?_, ?_, ?_⟩
  · intro hty
    have hv : byType t.events "view" = [e] := by rw [hev]; simp [byType, hty]
    have hc : byType t.events "click" = [] := by rw [hev]; simp [byType, hty]
    have ha : byType t.events "add_to_cart" = [] := by rw [hev]; simp [byType, hty]
    constructor
    · rw [load_graph_edges_viewed _ _ _ rfl, hv]
      simp only [lastWith_singleton]
      rw [if_pos (by simp [hce, hpe])]
      rfl
    · intro k hk hne
      rcases hk with h | h | h
      · have hfalse : decide ((⟨"VIEWED", ⟨"Customer", rowGet e "customer_id"⟩,
            ⟨"Product", rowGet e "product_id"⟩⟩ : EdgeKey) = k) = false :=
          decide_eq_false (fun hh => hne hh.symm)
        rw [load_graph_edges_viewed _ _ _ h, hv]
        simp only [lastWith_singleton]
        rw [if_neg (by simp [hfalse])]
        rfl
      · rw [load_graph_edges_clicked _ _ _ h, hc]
        rfl
      · rw [load_graph_edges_added _ _ _ h, ha]
        rfl
  · intro hty
    have hv : byType t.events "view" = [] := by rw [hev]; simp [byType, hty]
    have hc : byType t.events "click" = [e] := by rw [hev]; simp [byType, hty]
    have ha : byType t.events "add_to_cart" = [] := by rw [hev]; simp [byType, hty]
    constructor
    · rw [load_graph_edges_clicked _ _ _ rfl, hc]
      simp only [lastWith_singleton]
      rw [if_pos (by simp [hce, hpe])]
      rfl
    · intro k hk hne
      rcases hk with h | h | h
      · rw [load_graph_edges_viewed _ _ _ h, hv]
        rfl
      · have hfalse : decide ((⟨"CLICKED", ⟨"Customer", rowGet e "customer_id"⟩,
            ⟨"Product", rowGet e "product_id"⟩⟩ : EdgeKey) = k) = false :=
          decide_eq_false (fun hh => hne hh.symm)
        rw [load_graph_edges_clicked _ _ _ h, hc]
        simp only [lastWith_singleton]
        rw [if_neg (by simp [hfalse])]
        rfl
      · rw [load_graph_edges_added _ _ _ h, ha]
        rfl
  · intro hty
    have hv : byType t.events "view" = [] := by rw [hev]; simp [byType, hty]
    have hc : byType t.events "click" = [] := by rw [hev]; simp [byType, hty]
    have ha : byType t.events "add_to_cart" = [e] := by rw [hev]; simp [byType, hty]
    constructor
    · rw [load_graph_edges_added _ _ _ rfl, ha]
      simp only [lastWith_singleton]
      rw [if_pos (by simp [hce, hpe])]
      rfl
    · intro k hk hne
      rcases hk with h | h | h
      · rw [load_graph_edges_viewed _ _ _ h, hv]
        rfl
      · rw [load_graph_edges_clicked _ _ _ h, hc]
        rfl
      · have hfalse : decide ((⟨"ADDED_TO_CART", ⟨"Customer", rowGet e "customer_id"⟩,
            ⟨"Product", rowGet e "product_id"⟩⟩ : EdgeKey) = k) = false :=
          decide_eq_false (fun hh => hne hh.symm)
        rw [load_graph_edges_added _ _ _ h, ha]
        simp only [lastWith_singleton]
        rw [if_neg (by simp [hfalse])]
        rfl
  · intro h1 h2 h3 k hk
    have hv : byType t.events "view" = [] := by rw [hev]; simp [byType, h1]
    have hc : byType t.events "click" = [] := by rw [hev]; simp [byType, h2]
    have ha : byType t.events "add_to_cart" = [] := by rw [hev]; simp [byType, h3]
    rcases hk with h | h | h
    · rw [load_graph_edges_viewed _ _ _ h, hv]
      rfl
    · rw [load_graph_edges_clicked _ _ _ h, hc]
      rfl
    · rw [load_graph_edges_added _ _ _ h, ha]
      rfl

/-- Witness for C7 on a concrete snapshot: one `view` event with an existing
customer and product yields the single `VIEWED` edge with its normalized
`ts`, and a snapshot whose single event has the unrecognized type
`"purchase"` yields no `VIEWED` edge. -/
theorem event_routing_witness :
    (load_graph
        { customers := [[("id", Val.int 1), ("name", Val.str "a")]],
          categories := [], products := [[("id", Val.int 2), ("name", Val.str "w"),
            ("price", Val.int 3), ("category_id", Val.int 9)]],
          orders := [], order_items := [],
          events := [[("customer_id", Val.int 1), ("product_id", Val.int 2),
            ("event_type", Val.str "view"), ("ts", Val.str "2023-03-05T14:30:00Z")]] }
        Graph.empty).edges ⟨"VIEWED", ⟨"Customer", Val.int 1⟩, ⟨"Product", Val.int 2⟩⟩ =
      some (setProps emptyProps [("ts", Val.dt "2023-03-05T14:30:00Z")]) ∧
    (load_graph
        { customers := [[("id", Val.int 1), ("name", Val.str "a")]],
          categories := [], products := [[("id", Val.int 2), ("name", Val.str "w"),
            ("price", Val.int 3), ("category_id", Val.int 9)]],
          orders := [], order_items := [],
          events := [[("customer_id", Val.int 1), ("product_id", Val.int 2),
            ("event_type", Val.str "purchase"), ("ts", Val.str "2023-03-05T14:30:00Z")]] }
        Graph.empty).edges ⟨"VIEWED", ⟨"Customer", Val.int 1⟩, ⟨"Product", Val.int 2⟩⟩ =
      none := by
  constructor
  · exact ((event_routing
      { customers := [[("id", Val.int 1), ("name", Val.str "a")]],
        categories := [], products := [[("id", Val.int 2), ("name", Val.str "w"),
          ("price", Val.int 3), ("category_id", Val.int 9)]],
        orders := [], order_items := [],
        events := [[("customer_id", Val.int 1), ("product_id", Val.int 2),
          ("event_type", Val.str "view"), ("ts", Val.str "2023-03-05T14:30:00Z")]] }
      [("customer_id", Val.int 1), ("product_id", Val.int 2),
        ("event_type", Val.str "view"), ("ts", Val.str "2023-03-05T14:30:00Z")]
      rfl ⟨[("id", Val.int 1), ("name", Val.str "a")], by decide, by decide⟩
      ⟨[("id", Val.int 2), ("name", Val.str "w"), ("price", Val.int 3), ("category_id", Val.int 9)],
        by decide, by decide⟩).1 (by decide)).1
  · exact (((event_routing
      { customers := [[("id", Val.int 1), ("name", Val.str "a")]],
        categories := [], products := [[("id", Val.int 2), ("name", Val.str "w"),
          ("price", Val.int 3), ("category_id", Val.int 9)]],
        orders := [], order_items := [],
        events := [[("customer_id", Val.int 1), ("product_id", Val.int 2),
          ("event_type", Val.str "purchase"), ("ts", Val.str "2023-03-05T14:30:00Z")]] }
      [("customer_id", Val.int 1), ("product_id", Val.int 2),
        ("event_type", Val.str "purchase"), ("ts", Val.str "2023-03-05T14:30:00Z")]
      rfl ⟨[("id", Val.int 1), ("name", Val.str "a")], by decide, by decide⟩
      ⟨[("id", Val.int 2), ("name", Val.str "w"), ("price", Val.int 3), ("category_id", Val.int 9)],
        by decide, by decide⟩).2.2.2
      (by decide) (by decide) (by decide))
      ⟨"VIEWED", ⟨"Customer", Val.int 1⟩, ⟨"Product", Val.int 2⟩⟩ (Or.inl rfl))

/-- Counterexample to C6 as stated: two event rows carry the same
(customer, product, event_type) but different timestamps — legitimate data,
since the events relation has no primary key.  The `MERGE ... SET r.ts`
upsert makes the last row win, so permuting the events relation changes the
`ts` property of the resulting `VIEWED` edge: the two loads differ. -/
theorem load_graph_perm_counterexample :
    (SrcTables.mk
        [[("id", Val.int 1), ("name", Val.str "a")]] []
        [[("id", Val.int 2), ("name", Val.str "w"), ("price", Val.int 3), ("category_id", Val.int 9)]]
        [] []
        [[("customer_id", Val.int 1), ("product_id", Val.int 2),
          ("event_type", Val.str "view"), ("ts", Val.str "2023-01-02T00:00:00Z")],
         [("customer_id", Val.int 1), ("product_id", Val.int 2),
          ("event_type", Val.str "view"), ("ts", Val.str "2023-01-01T00:00:00Z")]]).events.Perm
      (SrcTables.mk
        [[("id", Val.int 1), ("name", Val.str "a")]] []
        [[("id", Val.int 2), ("name", Val.str "w"), ("price", Val.int 3), ("category_id", Val.int 9)]]
        [] []
        [[("customer_id", Val.int 1), ("product_id", Val.int 2),
          ("event_type", Val.str "view"), ("ts", Val.str "2023-01-01T00:00:00Z")],
         [("customer_id", Val.int 1), ("product_id", Val.int 2),
          ("event_type", Val.str "view"), ("ts", Val.str "2023-01-02T00:00:00Z")]]).events ∧
    load_graph
      (SrcTables.mk
        [[("id", Val.int 1), ("name", Val.str "a")]] []
        [[("id", Val.int 2), ("name", Val.str "w"), ("price", Val.int 3), ("category_id", Val.int 9)]]
        [] []
        [[("customer_id", Val.int 1), ("product_id", Val.int 2),
          ("event_type", Val.str "view"), ("ts", Val.str "2023-01-02T00:00:00Z")],
         [("customer_id", Val.int 1), ("product_id", Val.int 2),
          ("event_type", Val.str "view"), ("ts", Val.str "2023-01-01T00:00:00Z")]]) Graph.empty ≠
    load_graph
      (SrcTables.mk
        [[("id", Val.int 1), ("name", Val.str "a")]] []
        [[("id", Val.int 2), ("name", Val.str "w"), ("price", Val.int 3), ("category_id", Val.int 9)]]
        [] []
        [[("customer_id", Val.int 1), ("product_id", Val.int 2),
          ("event_type", Val.str "view"), ("ts", Val.str "2023-01-01T00:00:00Z")],
         [("customer_id", Val.int 1), ("product_id", Val.int 2),
          ("event_type", Val.str "view"), ("ts", Val.str "2023-01-02T00:00:00Z")]]) Graph.empty := by
  constructor
  · decide
  · intro hcontra
    have h2 := congrArg (fun G : Graph =>
      (G.edges ⟨"VIEWED", ⟨"Customer", Val.int 1⟩,
        ⟨"Product", Val.int 2⟩⟩).getD emptyProps "ts") hcontra
    have e1 : ((load_graph
        (SrcTables.mk
          [[("id", Val.int 1), ("name", Val.str "a")]] []
          [[("id", Val.int 2), ("name", Val.str "w"), ("price", Val.int 3), ("category_id", Val.int 9)]]
          [] []
          [[("customer_id", Val.int 1), ("product_id", Val.int 2),
            ("event_type", Val.str "view"), ("ts", Val.str "2023-01-02T00:00:00Z")],
           [("customer_id", Val.int 1), ("product_id", Val.int 2),
            ("event_type", Val.str "view"), ("ts", Val.str "2023-01-01T00:00:00Z")]]) Graph.empty).edges
        ⟨"VIEWED", ⟨"Customer", Val.int 1⟩, ⟨"Product", Val.int 2⟩⟩).getD emptyProps "ts" =
        some (Val.dt "2023-01-01T00:00:00Z") := by decide
    have e2 : ((load_graph
        (SrcTables.mk
          [[("id", Val.int 1), ("name", Val.str "a")]] []
          [[("id", Val.int 2), ("name", Val.str "w"), ("price", Val.int 3), ("category_id", Val.int 9)]]
          [] []
          [[("customer_id", Val.int 1), ("product_id", Val.int 2),
            ("event_type", Val.str "view"), ("ts", Val.str "2023-01-01T00:00:00Z")],
           [("customer_id", Val.int 1), ("product_id", Val.int 2),
            ("event_type", Val.str "view"), ("ts", Val.str "2023-01-02T00:00:00Z")]]) Graph.empty).edges
        ⟨"VIEWED", ⟨"Customer", Val.int 1⟩, ⟨"Product", Val.int 2⟩⟩).getD emptyProps "ts" =
        some (Val.dt "2023-01-02T00:00:00Z") := by decide
    simp only [e1, e2] at h2
    exact absurd h2 (by decide)

/-! ## Permutation invariance under primary keys -/

theorem perm_any {α : Type} {l l2 : List α} (h : l.Perm l2) (p : α → Bool) :
    l.any p = l2.any p := by
  cases hb : l2.any p with
  | true =>
    obtain ⟨x, hx, hpx⟩ := List.any_eq_true.mp hb
    exact List.any_eq_true.mpr ⟨x, h.mem_iff.mpr hx, hpx⟩
  | false =>
    rw [List.any_eq_false] at hb
    exact List.any_eq_false.mpr (fun x hx => hb x (h.mem_iff.mp hx))

theorem length_filter_le_one {α : Type} (f : Row → α) (rows : List Row) (p : Row → Bool)
    (hn : (rows.map f).Nodup) (c : α) (hp : ∀ r ∈ rows, p r = true → f r = c) :
    (rows.filter p).length ≤ 1 := by
  induction rows with
  | nil => simp
  | cons a rs ih =>
    rw [List.map_cons, List.nodup_cons] at hn
    rw [List.filter_cons]
    by_cases hpa : p a = true
    · rw [if_pos hpa]
      have hnil : rs.filter p = [] := by
        rw [List.filter_eq_nil_iff]
        intro r hr hpr
        have h1 : f r = c := hp r (List.mem_cons_of_mem a hr) hpr
        have h2 : f a = c := hp a (List.mem_cons_self a rs) hpa
        exact hn.1 ((h1.trans h2.symm) ▸ List.mem_map_of_mem f hr)
      rw [hnil]
      simp
    · rw [if_neg hpa]
      exact ih hn.2 (fun r hr => hp r (List.mem_cons_of_mem a hr))

theorem lastWith_perm_of_le_one (rows rows2 : List Row) (p : Row → Bool)
    (h : rows.Perm rows2) (hle : (rows.filter p).length ≤ 1) :
    lastWith rows p = lastWith rows2 p := by
  have heq : rows.filter p = rows2.filter p := by
    have hp := h.filter p
    cases he : rows.filter p with
    | nil =>
      rw [he] at hp
      exact (List.perm_nil.mp hp.symm).symm
    | cons a l =>
      cases l with
      | nil =>
        rw [he] at hp
        exact (List.perm_singleton.mp hp.symm).symm
      | cons b l2 =>
        rw [he] at hle
        simp at hle
  unfold lastWith
  rw [heq]

/-- C6 (amended): permuting the rows of the source relations before load
yields an identical graph, provided each relation's rows are pairwise
distinct on its merge identity — `id` for customers, categories, products
and orders, `(order_id, product_id)` for order items, and
`(customer_id, product_id, event_type)` for events.  (Without the last
condition the claim fails: see the counterexample, where two events share an
edge identity and last-writer-wins makes the result order-dependent.) -/
theorem load_graph_perm_of_nodup (t t2 : SrcTables) (g : Graph)
    (hcust : t.customers.Perm t2.customers)
    (hcat : t.categories.Perm t2.categories)
    (hprod : t.products.Perm t2.products)
    (hord : t.orders.Perm t2.orders)
    (hitem : t.order_items.Perm t2.order_items)
    (hev : t.events.Perm t2.events)
    (ncat : (t.categories.map (fun r => rowGet r "id")).Nodup)
    (nprod : (t.products.map (fun r => rowGet r "id")).Nodup)
    (ncust : (t.customers.map (fun r => rowGet r "id")).Nodup)
    (nord : (t.orders.map (fun r => rowGet r "id")).Nodup)
    (nitem : (t.order_items.map (fun r =>
      (rowGet r "order_id", rowGet r "product_id"))).Nodup)
    (nev : (t.events.map (fun r =>
      (rowGet r "customer_id", rowGet r "product_id", rowGet r "event_type"))).Nodup) :
    load_graph t g = load_graph t2 g := by
  have hcatEx : ∀ v, catExists t2 g v = catExists t g v := by
    intro v
    unfold catExists
    rw [perm_any hcat]
  have hcustEx : ∀ v, custExists t2 g v = custExists t g v := by
    intro v
    unfold custExists
    rw [perm_any hcust]
  have hprodEx : ∀ v, prodExists t2 g v = prodExists t g v := by
    intro v
    unfold prodExists
    rw [perm_any hprod]
  have hordEx : ∀ v, ordExists t2 g v = ordExists t g v := by
    intro v
    unfold ordExists
    rw [perm_any hord]
  apply Graph.ext2
  · intro k
    rcases k with ⟨l, v⟩
    by_cases h1 : l = "Category"
    · subst h1
      rw [load_graph_nodes_cat, load_graph_nodes_cat]
      exact congrArg _ (lastWith_perm_of_le_one _ _ _ hcat
        (length_filter_le_one (fun r => rowGet r "id") _ _ ncat v
          (fun r _ hpr => of_decide_eq_true hpr)))
    · by_cases h2 : l = "Product"
      · subst h2
        rw [load_graph_nodes_prod, load_graph_nodes_prod]
        exact congrArg _ (lastWith_perm_of_le_one _ _ _ hprod
          (length_filter_le_one (fun r => rowGet r "id") _ _ nprod v
            (fun r _ hpr => of_decide_eq_true hpr)))
      · by_cases h3 : l = "Customer"
        · subst h3
          rw [load_graph_nodes_cust, load_graph_nodes_cust]
          exact congrArg _ (lastWith_perm_of_le_one _ _ _ hcust
            (length_filter_le_one (fun r => rowGet r "id") _ _ ncust v
              (fun r _ hpr => of_decide_eq_true hpr)))
        · by_cases h4 : l = "Order"
          · subst h4
            rw [load_graph_nodes_ord, load_graph_nodes_ord]
            exact congrArg _ (lastWith_perm_of_le_one _ _ _ hord
              (length_filter_le_one (fun r => rowGet r "id") _ _ nord v
                (fun r _ hpr => of_decide_eq_true hpr)))
          · rw [load_graph_nodes_other t g ⟨l, v⟩ h1 h2 h3 h4,
              load_graph_nodes_other t2 g ⟨l, v⟩ h1 h2 h3 h4]
  · intro k
    rcases k with ⟨rel, s, d⟩
    by_cases h1 : rel = "IN_CATEGORY"
    · subst h1
      rw [load_graph_edges_incat _ _ _ rfl, load_graph_edges_incat _ _ _ rfl]
      simp only [hcatEx]
      refine congrArg _ (lastWith_perm_of_le_one _ _ _ hprod
        (length_filter_le_one (fun r => rowGet r "id") _ _ nprod s.id ?_))
      intro r _ hpr
      have hp2 : (⟨"IN_CATEGORY", ⟨"Product", rowGet r "id"⟩,
          ⟨"Category", rowGet r "category_id"⟩⟩ : EdgeKey) = ⟨"IN_CATEGORY", s, d⟩ ∧
          catExists t g (rowGet r "category_id") = true := by simpa using hpr
      exact congrArg (fun k2 => EdgeKey.src k2 |>.id) hp2.1
    · by_cases h2 : rel = "PLACED"
      · subst h2
        rw [load_graph_edges_placed _ _ _ rfl, load_graph_edges_placed _ _ _ rfl]
        simp only [hcustEx]
        refine congrArg _ (lastWith_perm_of_le_one _ _ _ hord
          (length_filter_le_one (fun r => rowGet r "id") _ _ nord d.id ?_))
        intro r _ hpr
        have hp2 : (⟨"PLACED", ⟨"Customer", rowGet r "customer_id"⟩,
            ⟨"Order", rowGet r "id"⟩⟩ : EdgeKey) = ⟨"PLACED", s, d⟩ ∧
            custExists t g (rowGet r "customer_id") = true := by simpa using hpr
        exact congrArg (fun k2 => EdgeKey.dst k2 |>.id) hp2.1
      · by_cases h3 : rel = "CONTAINS"
        · subst h3
          rw [load_graph_edges_contains _ _ _ rfl, load_graph_edges_contains _ _ _ rfl]
          simp only [hordEx, hprodEx]
          refine congrArg _ (lastWith_perm_of_le_one _ _ _ hitem
            (length_filter_le_one (fun r => (rowGet r "order_id", rowGet r "product_id"))
              _ _ nitem (s.id, d.id) ?_))
          intro r _ hpr
          have hp2 : (⟨"CONTAINS", ⟨"Order", rowGet r "order_id"⟩,
              ⟨"Product", rowGet r "product_id"⟩⟩ : EdgeKey) = ⟨"CONTAINS", s, d⟩ ∧
              (ordExists t g (rowGet r "order_id") = true ∧
               prodExists t g (rowGet r "product_id") = true) := by simpa using hpr
          have hsrc : rowGet r "order_id" = s.id :=
            congrArg (fun k2 => EdgeKey.src k2 |>.id) hp2.1
          have hdst : rowGet r "product_id" = d.id :=
            congrArg (fun k2 => EdgeKey.dst k2 |>.id) hp2.1
          show (rowGet r "order_id", rowGet r "product_id") = (s.id, d.id)
          rw [hsrc, hdst]
        · by_cases h4 : rel = "VIEWED"
          · subst h4
            rw [load_graph_edges_viewed _ _ _ rfl, load_graph_edges_viewed _ _ _ rfl]
            simp only [hcustEx, hprodEx]
            refine congrArg _ (lastWith_perm_of_le_one _ _ _ (hev.filter _)
              (length_filter_le_one
                (fun r => (rowGet r "customer_id", rowGet r "product_id", rowGet r "event_type"))
                _ _ (List.Nodup.sublist ((List.filter_sublist t.events).map _) nev)
                (s.id, d.id, Val.str "view") ?_))
            intro r hr hpr
            have hmem := List.mem_filter.mp hr
            have hty : rowGet r "event_type" = Val.str "view" := of_decide_eq_true hmem.2
            have hp2 : (⟨"VIEWED", ⟨"Customer", rowGet r "customer_id"⟩,
                ⟨"Product", rowGet r "product_id"⟩⟩ : EdgeKey) = ⟨"VIEWED", s, d⟩ ∧
                (custExists t g (rowGet r "customer_id") = true ∧
                 prodExists t g (rowGet r "product_id") = true) := by simpa using hpr
            have hsrc : rowGet r "customer_id" = s.id :=
              congrArg (fun k2 => EdgeKey.src k2 |>.id) hp2.1
            have hdst : rowGet r "product_id" = d.id :=
              congrArg (fun k2 => EdgeKey.dst k2 |>.id) hp2.1
            show (rowGet r "customer_id", rowGet r "product_id", rowGet r "event_type") = _
            rw [hsrc, hdst, hty]
          · by_cases h5 : rel = "CLICKED"
            · subst h5
              rw [load_graph_edges_clicked _ _ _ rfl, load_graph_edges_clicked _ _ _ rfl]
              simp only [hcustEx, hprodEx]
              refine congrArg _ (lastWith_perm_of_le_one _ _ _ (hev.filter _)
                (length_filter_le_one
                  (fun r => (rowGet r "customer_id", rowGet r "product_id", rowGet r "event_type"))
                  _ _ (List.Nodup.sublist ((List.filter_sublist t.events).map _) nev)
                  (s.id, d.id, Val.str "click") ?_))
              intro r hr hpr
              have hmem := List.mem_filter.mp hr
              have hty : rowGet r "event_type" = Val.str "click" := of_decide_eq_true hmem.2
              have hp2 : (⟨"CLICKED", ⟨"Customer", rowGet r "customer_id"⟩,
                  ⟨"Product", rowGet r "product_id"⟩⟩ : EdgeKey) = ⟨"CLICKED", s, d⟩ ∧
                  (custExists t g (rowGet r "customer_id") = true ∧
                   prodExists t g (rowGet r "product_id") = true) := by simpa using hpr
              have hsrc : rowGet r "customer_id" = s.id :=
                congrArg (fun k2 => EdgeKey.src k2 |>.id) hp2.1
              have hdst : rowGet r "product_id" = d.id :=
                congrArg (fun k2 => EdgeKey.dst k2 |>.id) hp2.1
              show (rowGet r "customer_id", rowGet r "product_id", rowGet r "event_type") = _
              rw [hsrc, hdst, hty]
            · by_cases h6 : rel = "ADDED_TO_CART"
              · subst h6
                rw [load_graph_edges_added _ _ _ rfl, load_graph_edges_added _ _ _ rfl]
                simp only [hcustEx, hprodEx]
                refine congrArg _ (lastWith_perm_of_le_one _ _ _ (hev.filter _)
                  (length_filter_le_one
                    (fun r => (rowGet r "customer_id", rowGet r "product_id", rowGet r "event_type"))
                    _ _ (List.Nodup.sublist ((List.filter_sublist t.events).map _) nev)
                    (s.id, d.id, Val.str "add_to_cart") ?_))
                intro r hr hpr
                have hmem := List.mem_filter.mp hr
                have hty : rowGet r "event_type" = Val.str "add_to_cart" :=
                  of_decide_eq_true hmem.2
                have hp2 : (⟨"ADDED_TO_CART", ⟨"Customer", rowGet r "customer_id"⟩,
                    ⟨"Product", rowGet r "product_id"⟩⟩ : EdgeKey) = ⟨"ADDED_TO_CART", s, d⟩ ∧
                    (custExists t g (rowGet r "customer_id") = true ∧
                     prodExists t g (rowGet r "product_id") = true) := by simpa using hpr
                have hsrc : rowGet r "customer_id" = s.id :=
                  congrArg (fun k2 => EdgeKey.src k2 |>.id) hp2.1
                have hdst : rowGet r "product_id" = d.id :=
                  congrArg (fun k2 => EdgeKey.dst k2 |>.id) hp2.1
                show (rowGet r "customer_id", rowGet r "product_id", rowGet r "event_type") = _
                rw [hsrc, hdst, hty]
              · rw [load_graph_edges_other t g ⟨rel, s, d⟩ h1 h2 h3 h4 h5 h6,
                  load_graph_edges_other t2 g ⟨rel, s, d⟩ h1 h2 h3 h4 h5 h6]

/-- Witness for C6's amended theorem: swapping the two (distinct-id)
categories rows of a concrete snapshot yields the identical loaded graph. -/
theorem load_graph_perm_of_nodup_witness :
    load_graph
      (SrcTables.mk [] [[("id", Val.int 1), ("name", Val.str "a")],
        [("id", Val.int 2), ("name", Val.str "b")]] [] [] [] [])
      Graph.empty =
    load_graph
      (SrcTables.mk [] [[("id", Val.int 2), ("name", Val.str "b")],
        [("id", Val.int 1), ("name", Val.str "a")]] [] [] [] [])
      Graph.empty := by
  exact load_graph_perm_of_nodup
    (SrcTables.mk [] [[("id", Val.int 1), ("name", Val.str "a")],
      [("id", Val.int 2), ("name", Val.str "b")]] [] [] [] [])
    (SrcTables.mk [] [[("id", Val.int 2), ("name", Val.str "b")],
      [("id", Val.int 1), ("name", Val.str "a")]] [] [] [] [])
    Graph.empty
    (by decide) (by decide) (by decide) (by decide) (by decide) (by decide)
    (by decide) (by decide) (by decide) (by decide) (by decide) (by decide)
